import Mathlib

/-!
The porto-server back end: the message listing query builder, the token gate and the
handlers

A shallow embedding of the `GET /api/messages` handler, of the `authenticateToken`
middleware and of the login, contact, message and project handlers of `index.js`.

Conventions of the embedding.

* A query-string parameter is `Option String`: `none` when the parameter is absent (the
  destructuring default of the handler then applies), `some s` when it is the string `s`.
* A JavaScript number is a `JsNumber`: `NaN`, a double whose value is an integer, or an
  infinity.  An integer is rounded to the nearest double (ties to even) wherever the code
  computes one; the text that a template literal prints for a double of magnitude `2 ^ 53`
  and more (shortest digits, or exponent notation) is a routine of the runtime and is taken
  as the parameter `bigText`.
* The SQL statements are kept as the text the handler builds; what a statement selects is
  given by a small relational semantics on a table held as a list of rows.
* A body field is absent or a string (`Option String`); a handler is a function from the
  table before the request to the table after it and the response, every statement
  succeeding unless said otherwise.
-/

set_option autoImplicit false

namespace PortoServer

/-! ## JavaScript runtime fragments -/

/-- ECMAScript `WhiteSpace` and `LineTerminator` code points: the characters stripped by
`String.prototype.trim` and skipped by `parseInt`. -/
def isStrWhiteSpace (c : Char) : Bool :=
  let n := c.toNat
  n == 9 || n == 10 || n == 11 || n == 12 || n == 13 || n == 32 || n == 160 || n == 0x1680
    || (decide (0x2000 ≤ n) && decide (n ≤ 0x200A)) || n == 0x2028 || n == 0x2029
    || n == 0x202F || n == 0x205F || n == 0x3000 || n == 0xFEFF

/-- Leading white space removed. -/
def trimStart (cs : List Char) : List Char :=
  cs.dropWhile isStrWhiteSpace

/-- Trailing white space removed. -/
def trimEnd (cs : List Char) : List Char :=
  (cs.reverse.dropWhile isStrWhiteSpace).reverse

/-- JavaScript `String.prototype.trim`. -/
def trim (s : String) : String :=
  ⟨trimEnd (trimStart s.data)⟩

/-- Value of a character read as a digit in some radix up to 36. -/
def digitValue (c : Char) : Option Nat :=
  let n := c.toNat
  if 48 ≤ n ∧ n ≤ 57 then some (n - 48)
  else if 97 ≤ n ∧ n ≤ 122 then some (n - 87)
  else if 65 ≤ n ∧ n ≤ 90 then some (n - 55)
  else none

/-- The longest prefix of radix-`R` digits, as digit values. -/
def radixDigits (R : Nat) : List Char → List Nat
  | [] => []
  | c :: cs =>
    match digitValue c with
    | some d => if d < R then d :: radixDigits R cs else []
    | none => []

/-- The number written by a list of digit values, most significant first. -/
def digitsValue (R : Nat) (ds : List Nat) : Nat :=
  ds.foldl (fun acc d => acc * R + d) 0

/-- Sign step of `parseInt`: a leading `-` or `+` is consumed. -/
def stripSign (cs : List Char) : Bool × List Char :=
  match cs with
  | [] => (false, [])
  | c :: r => if c = '-' then (true, r) else if c = '+' then (false, r) else (false, c :: r)

/-- Radix step of `parseInt` called without a radix: `0x` or `0X` selects 16, else 10. -/
def stripRadix (cs : List Char) : Nat × List Char :=
  match cs with
  | c :: d :: r => if c = '0' ∧ (d = 'x' ∨ d = 'X') then (16, r) else (10, c :: d :: r)
  | other => (10, other)

/-- The steps of `parseInt(s)` on the characters of `s` up to the signed mathematical
integer that the digits write; `none` when there is no digit (the result is then `NaN`). -/
def parseIntChars (cs : List Char) : Option Int :=
  let signed := stripSign (trimStart cs)
  let based := stripRadix signed.2
  match radixDigits based.1 based.2 with
  | [] => none
  | d :: ds =>
    let v : Int := (digitsValue based.1 (d :: ds) : Nat)
    some (if signed.1 then -v else v)

/-- A JavaScript number as the pagination code can produce one: `NaN`, a double whose value
is the integer `v` (the two zeros are not told apart), or an infinity with its sign. -/
inductive JsNumber where
  | nan
  | fin (v : Int)
  | inf (negative : Bool)
  deriving DecidableEq, Repr

/-- Number of binary digits of a natural number below `2 ^ fuel`. -/
def bitLength : Nat → Nat → Nat
  | 0, _ => 0
  | fuel + 1, a => if a = 0 then 0 else bitLength fuel (a / 2) + 1

/-- The double nearest to a natural number, ties to even: the number itself below `2 ^ 53`,
else its 53 leading binary digits rounded, `none` when the result leaves the range of the
finite doubles. -/
def roundNat (a : Nat) : Option Nat :=
  if a < 2 ^ 53 then some a
  else if 2 ^ 1024 ≤ a then none
  else
    let e := bitLength 1024 a - 53
    let q := a / 2 ^ e
    let r := a % 2 ^ e
    let q' := if 2 ^ e < 2 * r ∨ (2 * r = 2 ^ e ∧ q % 2 = 1) then q + 1 else q
    if q' * 2 ^ e < 2 ^ 1024 then some (q' * 2 ^ e) else none

/-- The number value of a mathematical integer: the nearest double, or an infinity. -/
def toDouble (m : Int) : JsNumber :=
  match roundNat m.natAbs with
  | some v => JsNumber.fin (if m < 0 then -(v : Int) else (v : Int))
  | none => JsNumber.inf (decide (m < 0))

/-- The call `parseInt(s)`: `NaN` without a digit, else the number value of the integer
that the digits write. -/
def parseInt (s : String) : JsNumber :=
  match parseIntChars s.data with
  | none => JsNumber.nan
  | some m => toDouble m

/-- The expression `x || d` for a number `x`: `NaN` and `0` are falsy. -/
def orDefault (x : JsNumber) (d : Int) : JsNumber :=
  match x with
  | JsNumber.nan => JsNumber.fin d
  | JsNumber.fin v => if v = 0 then JsNumber.fin d else JsNumber.fin v
  | JsNumber.inf negative => JsNumber.inf negative

/-- The call `Math.max(a, x)` for an integer `a`. -/
def mathMax (a : Int) (x : JsNumber) : JsNumber :=
  match x with
  | JsNumber.nan => JsNumber.nan
  | JsNumber.fin v => JsNumber.fin (max a v)
  | JsNumber.inf negative => if negative then JsNumber.fin a else JsNumber.inf false

/-- The expression `x - 1`. -/
def minusOne (x : JsNumber) : JsNumber :=
  match x with
  | JsNumber.nan => JsNumber.nan
  | JsNumber.fin v => toDouble (v - 1)
  | JsNumber.inf negative => JsNumber.inf negative

/-- The expression `x * y`: the rounded product of two finite numbers, `NaN` for zero times
an infinity, an infinity with the product of the signs otherwise. -/
def times (x y : JsNumber) : JsNumber :=
  match x with
  | JsNumber.nan => JsNumber.nan
  | JsNumber.fin a =>
    match y with
    | JsNumber.nan => JsNumber.nan
    | JsNumber.fin b => toDouble (a * b)
    | JsNumber.inf n => if a = 0 then JsNumber.nan else JsNumber.inf (xor (decide (a < 0)) n)
  | JsNumber.inf m =>
    match y with
    | JsNumber.nan => JsNumber.nan
    | JsNumber.fin b => if b = 0 then JsNumber.nan else JsNumber.inf (xor m (decide (b < 0)))
    | JsNumber.inf n => JsNumber.inf (xor m n)

/-- The comparison `x <= y` of two numbers; false when one of them is `NaN`. -/
def JsNumber.le (x y : JsNumber) : Bool :=
  match x with
  | JsNumber.nan => false
  | JsNumber.fin a =>
    match y with
    | JsNumber.nan => false
    | JsNumber.fin b => decide (a ≤ b)
    | JsNumber.inf n => !n
  | JsNumber.inf m =>
    match y with
    | JsNumber.nan => false
    | JsNumber.fin _ => m
    | JsNumber.inf n => m || !n

/-- The comparison `x < y` of two numbers; false when one of them is `NaN`. -/
def JsNumber.lt (x y : JsNumber) : Bool :=
  match x with
  | JsNumber.nan => false
  | JsNumber.fin a =>
    match y with
    | JsNumber.nan => false
    | JsNumber.fin b => decide (a < b)
    | JsNumber.inf n => !n
  | JsNumber.inf m =>
    match y with
    | JsNumber.nan => false
    | JsNumber.fin _ => m
    | JsNumber.inf n => m && !n

/-- The text that a template literal prints for a number.  A double of magnitude below
`2 ^ 53` is printed as the decimal digits of its integer; `bigText v` is what the runtime
prints for the double of value `v` of magnitude `2 ^ 53` and more. -/
def numberText (bigText : Int → String) (x : JsNumber) : String :=
  match x with
  | JsNumber.nan => "NaN"
  | JsNumber.fin v => if v.natAbs < 2 ^ 53 then toString v else bigText v
  | JsNumber.inf negative => if negative then "-Infinity" else "Infinity"

/-- The string of `k` nines. -/
def nines (k : Nat) : String :=
  ⟨List.replicate k '9'⟩

/-- Upper-case letters of the basic Latin alphabet, in order. -/
def latinUpper : List Char :=
  ['A', 'B', 'C', 'D', 'E', 'F', 'G', 'H', 'I', 'J', 'K', 'L', 'M',
   'N', 'O', 'P', 'Q', 'R', 'S', 'T', 'U', 'V', 'W', 'X', 'Y', 'Z']

/-- The code points outside the basic Latin letters whose Unicode upper-case form contains
a basic Latin letter, each with that form. -/
def specialUpper : List (Nat × List Char) :=
  [(0xDF, ['S', 'S']), (0x131, ['I']), (0x17F, ['S']),
   (0x149, [Char.ofNat 0x2BC, 'N']), (0x1F0, ['J', Char.ofNat 0x30C]),
   (0x1E96, ['H', Char.ofNat 0x331]), (0x1E97, ['T', Char.ofNat 0x308]),
   (0x1E98, ['W', Char.ofNat 0x30A]), (0x1E99, ['Y', Char.ofNat 0x30A]),
   (0x1E9A, ['A', Char.ofNat 0x2BE]),
   (0xFB00, ['F', 'F']), (0xFB01, ['F', 'I']), (0xFB02, ['F', 'L']),
   (0xFB03, ['F', 'F', 'I']), (0xFB04, ['F', 'F', 'L']),
   (0xFB05, ['S', 'T']), (0xFB06, ['S', 'T'])]

/-- JavaScript `String.prototype.toUpperCase` on one code point.  The basic Latin letters and the code
points of `specialUpper` are mapped; every other code point is returned as it is (its
upper-case form holds no basic Latin letter, and the handlers compare the result with basic
Latin literals only). -/
def upperChar (c : Char) : List Char :=
  let n := c.toNat
  if 97 ≤ n ∧ n ≤ 122 then [latinUpper.getD (n - 97) c]
  else
    match specialUpper.lookup n with
    | some u => u
    | none => [c]

/-- What an entry of `specialUpper` can be, as far as the letters `A`, `S`, `C` go. -/
def specialShape (e : Nat × List Char) : Bool :=
  match e.2 with
  | [] => false
  | [x] => (e.1 == 0x17F && x == 'S') || (x != 'A' && x != 'S' && x != 'C')
  | x :: y :: _ => !(x == 'A' && y == 'S') && !(x == 'S' && y == 'C')

/-- JavaScript `String.prototype.toUpperCase`. -/
def toUpperCase (s : String) : String :=
  ⟨s.data.flatMap upperChar⟩

/-! ## `GET /api/messages`: pagination -/

/-- The expression `Math.max(1, parseInt(page) || 1)`, with `page = 1` when the parameter is absent. -/
def pageNum (page : Option String) : JsNumber :=
  mathMax 1 (orDefault (parseInt (page.getD "1")) 1)

/-- The expression `Math.max(1, parseInt(limit) || 10)`, with `limit = 10` when the parameter is absent. -/
def limitNum (limit : Option String) : JsNumber :=
  mathMax 1 (orDefault (parseInt (limit.getD "10")) 10)

/-- The expression `(pageNum - 1) * limitNum` on numbers. -/
def offset (pageNum limitNum : JsNumber) : JsNumber :=
  times (minusOne pageNum) limitNum

/-- The offset `(pageNum - 1) * limitNum` of a page as an integer: the value of `offset`
when the page, the limit and the product are below `2 ^ 53`. -/
def exactOffset (pageNum limitNum : Int) : Int :=
  (pageNum - 1) * limitNum

/-! ## `GET /api/messages`: the query parameters -/

/-- The six entries of `req.query` read by the handler. -/
structure Query where
  page : Option String
  limit : Option String
  status : Option String
  search : Option String
  sortBy : Option String
  sortOrder : Option String
  deriving DecidableEq, Repr

/-- The test `status && status !== 'all'`. -/
def statusApplies (status : Option String) : Bool :=
  match status with
  | none => false
  | some s => s != "" && s != "all"

/-- The test `search && search.trim() !== ''`. -/
def searchApplies (search : Option String) : Bool :=
  match search with
  | none => false
  | some s => s != "" && trim s != ""

/-- The text of the search condition, the same after `WHERE` and after `AND`. -/
def searchCondition : String :=
  "(name LIKE ? OR email LIKE ? OR message LIKE ?)"

/-- The block `// Build WHERE clause`: the clause text and its bound parameters, built by
the two guarded updates of `whereClause` and `whereParams`. -/
def buildWhere (status search : Option String) : String × List String :=
  let whereClause := ""
  let whereParams : List String := []
  let afterStatus : String × List String :=
    if statusApplies status then
      (whereClause ++ " WHERE status = ?", whereParams ++ [status.getD ""])
    else (whereClause, whereParams)
  if searchApplies search then
    let searchParam := "%" ++ trim (search.getD "") ++ "%"
    let clause :=
      if afterStatus.1 != "" then afterStatus.1 ++ " AND " ++ searchCondition
      else " WHERE " ++ searchCondition
    (clause, afterStatus.2 ++ [searchParam, searchParam, searchParam])
  else afterStatus

/-- The constant `allowedSortColumns`. -/
def allowedSortColumns : List String :=
  ["created_at", "name", "status"]

/-- The expression `allowedSortColumns.includes(sortBy) ? sortBy : 'created_at'`, with
`sortBy = 'created_at'` when the parameter is absent. -/
def sortColumn (sortBy : Option String) : String :=
  let v := sortBy.getD "created_at"
  if allowedSortColumns.contains v then v else "created_at"

/-- The expression `sortOrder.toUpperCase() === 'ASC' ? 'ASC' : 'DESC'`, with `sortOrder = 'DESC'` when
the parameter is absent. -/
def sortDirection (sortOrder : Option String) : String :=
  if toUpperCase (sortOrder.getD "DESC") = "ASC" then "ASC" else "DESC"

/-- The template literal of `messagesSql`, as a function of the texts in its five holes. -/
def messagesTemplate (clause column direction limitText offsetText : String) : String :=
  "\n      SELECT * FROM contact_messages \n      " ++ clause
    ++ "\n      ORDER BY " ++ column ++ " " ++ direction
    ++ "\n      LIMIT " ++ limitText ++ " OFFSET " ++ offsetText ++ "\n    "

/-- The template literal of `countSql`. -/
def countTemplate (clause : String) : String :=
  "SELECT COUNT(*) as total FROM contact_messages " ++ clause

/-- A statement handed to `pool.execute`: its text and its bound parameters. -/
structure Statement where
  sql : String
  params : List String
  deriving DecidableEq, Repr

/-- The listing statement: `messagesSql` with `messagesParams = [...whereParams]`. -/
def messagesStatement (bigText : Int → String) (q : Query) : Statement :=
  let w := buildWhere q.status q.search
  let messagesParams := [] ++ w.2
  { sql := messagesTemplate w.1 (sortColumn q.sortBy) (sortDirection q.sortOrder)
      (numberText bigText (limitNum q.limit))
      (numberText bigText (offset (pageNum q.page) (limitNum q.limit))),
    params := messagesParams }

/-- The count statement: `countSql` with `whereParams`. -/
def countStatement (q : Query) : Statement :=
  let w := buildWhere q.status q.search
  { sql := countTemplate w.1, params := w.2 }

/-- Number of `?` placeholders in a statement text. -/
def placeholders (s : String) : Nat :=
  s.data.count '?'

/-! ## The `contact_messages` table and what the statements select -/

/-- The column `status ENUM('unread', 'read', 'replied', 'archived')`. -/
inductive Status where
  | unread
  | read
  | replied
  | archived
  deriving DecidableEq, Repr

/-- The label of an enumeration value. -/
def Status.label : Status → String
  | .unread => "unread"
  | .read => "read"
  | .replied => "replied"
  | .archived => "archived"

/-- The index of an enumeration value, by which `ORDER BY status` sorts. -/
def Status.index : Status → Nat
  | .unread => 1
  | .read => 2
  | .replied => 3
  | .archived => 4

/-- A row of `contact_messages`, with the columns of the `CREATE TABLE` statement.
Time stamps are seconds; a nullable column is an `Option`. -/
structure ContactMessage where
  id : Nat
  name : String
  email : String
  message : String
  subject : String
  status : Status
  source : String
  ip_address : Option String
  user_agent : Option String
  read_at : Option Nat
  replied_at : Option Nat
  admin_notes : Option String
  created_at : Nat
  updated_at : Nat
  deriving DecidableEq, Repr

/-- The test `text LIKE pattern` on character lists.  `%` stands for any run of characters, `_` for
any one character, a backslash takes the next pattern character literally; two characters
are equal when the collation gives them the same key. -/
def likeMatch (key : Char → Char) : List Char → List Char → Bool
  | [], t => t.isEmpty
  | c :: p, t =>
    if c = '%' then t.tails.any (fun u => likeMatch key p u)
    else if c = '_' then
      match t with
      | [] => false
      | _ :: u => likeMatch key p u
    else if c = '\\' then
      match t with
      | [] => false
      | x :: u =>
        match p with
        | [] => key c == key x && u.isEmpty
        | e :: p' => key e == key x && likeMatch key p' u
    else
      match t with
      | [] => false
      | x :: u => key c == key x && likeMatch key p u

/-- The test `column LIKE ?` with the parameter bound to `pattern`. -/
def likeColumn (key : Char → Char) (pattern value : String) : Bool :=
  likeMatch key pattern.data value.data

/-- The test `status = ?` with the parameter bound to `param`: the label compared under the
collation. -/
def statusEquals (key : Char → Char) (st : Status) (param : String) : Bool :=
  st.label.data.map key == param.data.map key

/-- The three `LIKE` conditions joined by `OR`. -/
def searchHolds (key : Char → Char) (a b c : String) (r : ContactMessage) : Bool :=
  likeColumn key a r.name || likeColumn key b r.email || likeColumn key c r.message

/-- Truth of a `WHERE` clause on a row, for the clause texts of the handler with their
parameters bound in order; `none` for any other text or parameter count. -/
def evalWhere (key : Char → Char) (clause : String) (params : List String)
    (r : ContactMessage) : Option Bool :=
  if clause = "" then
    match params with
    | [] => some true
    | _ => none
  else if clause = " WHERE status = ?" then
    match params with
    | [s] => some (statusEquals key r.status s)
    | _ => none
  else if clause = " WHERE " ++ searchCondition then
    match params with
    | [a, b, c] => some (searchHolds key a b c r)
    | _ => none
  else if clause = " WHERE status = ? AND " ++ searchCondition then
    match params with
    | [s, a, b, c] => some (statusEquals key r.status s && searchHolds key a b c r)
    | _ => none
  else none

/-- Rows of the table on which the clause is true. -/
def selectRows (key : Char → Char) (clause : String) (params : List String)
    (table : List ContactMessage) : List ContactMessage :=
  table.filter (fun r => evalWhere key clause params r == some true)

/-- Order of two rows under `ORDER BY column ASC`. -/
def rowLe (key : Char → Char) (column : String) (a b : ContactMessage) : Bool :=
  if column = "name" then decide (a.name.data.map key ≤ b.name.data.map key)
  else if column = "status" then decide (a.status.index ≤ b.status.index)
  else decide (a.created_at ≤ b.created_at)

/-- The clause `ORDER BY column direction`. -/
def orderRows (key : Char → Char) (column direction : String)
    (rows : List ContactMessage) : List ContactMessage :=
  if direction = "ASC" then rows.mergeSort (fun a b => rowLe key column a b)
  else rows.mergeSort (fun a b => rowLe key column b a)

/-- Result of the listing statement: the selected rows, ordered, `OFFSET` rows dropped and
at most `LIMIT` rows kept. -/
def execListing (key : Char → Char) (table : List ContactMessage) (clause : String)
    (params : List String) (column direction : String) (lim off : Int) :
    List ContactMessage :=
  ((orderRows key column direction (selectRows key clause params table)).drop
    off.toNat).take lim.toNat

/-- Result of the count statement: `COUNT(*)` of the selected rows. -/
def execCount (key : Char → Char) (table : List ContactMessage) (clause : String)
    (params : List String) : Int :=
  ((selectRows key clause params table).length : Nat)

/-- The expression `Math.ceil(total / limitNum)` on a finite limit: the ceiling of the exact
quotient, which the ceiling of the double quotient equals for a total below `2 ^ 53`. -/
def ceilDiv (total limitNum : Int) : Int :=
  Int.ceil ((total : ℚ) / (limitNum : ℚ))

/-- The `pagination` object of the response. -/
structure Pagination where
  page : Int
  limit : Int
  total : Int
  pages : Int
  deriving DecidableEq, Repr

/-- The 200 response of `GET /api/messages`; the `stats` block, computed over the whole
table by a third statement that takes nothing from the request, is left out. -/
structure ListResponse where
  messages : List ContactMessage
  pagination : Pagination
  deriving DecidableEq, Repr

/-- The handler from the parsed page and limit on, for a page and a limit that are integers
with an exact offset: both statements run on the same table. -/
def listMessagesAt (key : Char → Char) (table : List ContactMessage) (pageNum limitNum : Int)
    (status search sortBy sortOrder : Option String) : ListResponse :=
  let w := buildWhere status search
  let messages := execListing key table w.1 ([] ++ w.2) (sortColumn sortBy)
    (sortDirection sortOrder) limitNum (exactOffset pageNum limitNum)
  let total := execCount key table w.1 w.2
  { messages := messages,
    pagination :=
      { page := pageNum, limit := limitNum, total := total, pages := ceilDiv total limitNum } }

/-- What the database makes of the text after `LIMIT` or `OFFSET`: the number written by a
non-empty run of decimal digits that fits an unsigned 64-bit integer; any other text
(`Infinity`, `NaN`, exponent notation, a longer numeral) is a syntax error. -/
def limitLiteral (text : String) : Option Nat :=
  if text.data ≠ [] ∧ (radixDigits 10 text.data).length = text.data.length ∧
      digitsValue 10 (radixDigits 10 text.data) < 2 ^ 64 then
    some (digitsValue 10 (radixDigits 10 text.data))
  else none

/-- An outcome of `GET /api/messages`: the 200 response, or the 500 answer of the `catch`
block when a statement fails. -/
inductive ListOutcome where
  | ok (response : ListResponse)
  | serverError
  deriving DecidableEq, Repr

/-- The handler of `GET /api/messages` on a table.  The listing statement runs with the
numbers that the database reads from the texts after `LIMIT` and `OFFSET`, and fails when
one of the two texts is no integer literal. -/
def listMessages (bigText : Int → String) (key : Char → Char) (table : List ContactMessage)
    (q : Query) : ListOutcome :=
  let w := buildWhere q.status q.search
  match pageNum q.page, limitNum q.limit,
      limitLiteral (numberText bigText (limitNum q.limit)),
      limitLiteral (numberText bigText (offset (pageNum q.page) (limitNum q.limit))) with
  | JsNumber.fin p, JsNumber.fin l, some lim, some off =>
    let messages := execListing key table w.1 ([] ++ w.2) (sortColumn q.sortBy)
      (sortDirection q.sortOrder) (lim : Int) (off : Int)
    let total := execCount key table w.1 w.2
    ListOutcome.ok
      { messages := messages,
        pagination := { page := p, limit := l, total := total, pages := ceilDiv total l } }
  | _, _, _, _ => ListOutcome.serverError

/-- The request whose `page` and `limit` are the decimal numerals of `p` and `l`. -/
def numeralQuery (p l : Nat) (status search sortBy sortOrder : Option String) : Query :=
  { page := some (toString p), limit := some (toString l), status := status, search := search,
    sortBy := sortBy, sortOrder := sortOrder }

/-- A request for the second page of five unread messages that mention `bob`. -/
def sampleQuery : Query :=
  { page := some "2", limit := some "5", status := some "unread", search := some "bob",
    sortBy := some "name", sortOrder := some "asc" }

/-- The same request with SQL fragments as `status` and `search` values. -/
def hostileQuery : Query :=
  { page := some "2", limit := some "5", status := some "read OR 1=1",
    search := some "%; DROP TABLE contact_messages", sortBy := some "name",
    sortOrder := some "asc" }

/-- A request for the first page with 310 nines as `limit`, a positive integer. -/
def hugeLimitQuery : Query :=
  { page := some "1", limit := some (nines 310), status := none, search := none,
    sortBy := none, sortOrder := none }

/-- A row with the given id, name, e-mail address, message, status and creation time, the
other columns at their defaults. -/
def sampleRow (id : Nat) (name email message : String) (status : Status) (created : Nat) :
    ContactMessage :=
  { id := id, name := name, email := email, message := message, subject := "General Inquiry",
    status := status, source := "contact_form", ip_address := none, user_agent := none,
    read_at := none, replied_at := none, admin_notes := none, created_at := created,
    updated_at := created }

/-- A table of three messages. -/
def sampleTable : List ContactMessage :=
  [sampleRow 1 "bob" "bob@example.org" "hello" Status.unread 100,
   sampleRow 2 "Alice" "alice@example.org" "Bob says hi" Status.read 200,
   sampleRow 3 "carol" "carol@example.org" "quote please" Status.unread 300]

/-- The words of the specification: `w` appears in `t` as a substring, two characters
being the same when the collation gives them the same key (case-insensitive when the key
is the lower-case letter). -/
def appearsIn (key : Char → Char) (w t : String) : Prop :=
  w.data.map key <:+: t.data.map key

instance (key : Char → Char) (w t : String) : Decidable (appearsIn key w t) := by
  unfold appearsIn
  infer_instance

/-- The words of the specification: the rows in which the search text appears in the name,
in the e-mail address or in the message. -/
def rowsContaining (key : Char → Char) (w : String) (table : List ContactMessage) :
    List ContactMessage :=
  table.filter (fun r =>
    decide (appearsIn key w r.name ∨ appearsIn key w r.email ∨ appearsIn key w r.message))

/-! ## `authenticateToken` -/

/-- The call `s.split(' ')` on character lists. -/
def splitSpace : List Char → List (List Char)
  | [] => [[]]
  | c :: cs =>
    if c = ' ' then [] :: splitSpace cs
    else
      match splitSpace cs with
      | [] => [[c]]
      | seg :: rest => (c :: seg) :: rest

/-- The expression `authHeader && authHeader.split(' ')[1]`, with a falsy result (`undefined` or the empty
string) as `none`. -/
def bearerToken (authHeader : Option String) : Option String :=
  match authHeader with
  | none => none
  | some h =>
    if h = "" then none
    else
      match (splitSpace h.data).get? 1 with
      | none => none
      | some seg => if seg = [] then none else some ⟨seg⟩

/-- What the middleware does to the response and to the chain, in order. -/
inductive GateEffect (Claims : Type) where
  | respond (status : Nat) (error : String)
  | setUser (user : Claims)
  | next
  deriving DecidableEq, Repr

/-- The middleware `authenticateToken`; `verify token` is `jwt.verify(token, JWT_SECRET, cb)`,
`none` when the callback receives an error. -/
def authenticateToken {Claims : Type} (verify : String → Option Claims)
    (authHeader : Option String) : List (GateEffect Claims) :=
  match bearerToken authHeader with
  | none => [GateEffect.respond 401 "Access token required"]
  | some token =>
    match verify token with
    | none => [GateEffect.respond 403 "Invalid or expired token"]
    | some user => [GateEffect.setUser user, GateEffect.next]

/-- Number of calls of the downstream handler among the effects. -/
def nextCalls {Claims : Type} : List (GateEffect Claims) → Nat
  | [] => 0
  | GateEffect.next :: es => nextCalls es + 1
  | _ :: es => nextCalls es

/-- The status the middleware answered with, if it answered. -/
def respondedStatus {Claims : Type} : List (GateEffect Claims) → Option Nat
  | [] => none
  | GateEffect.respond status _ :: _ => some status
  | _ :: es => respondedStatus es

/-- The words of the specification: the token segment of an `Authorization` header, the run
of characters after its first space up to the next space; `none` when the header has no
space or when that run is empty. -/
def tokenSegment (h : String) : Option String :=
  match h.data.dropWhile (fun c => c != ' ') with
  | [] => none
  | _ :: rest =>
    if rest.takeWhile (fun c => c != ' ') = [] then none
    else some ⟨rest.takeWhile (fun c => c != ' ')⟩

/-! ## Request bodies -/

/-- Truthiness of a body field that is absent or a string: present and not empty. -/
def truthy (v : Option String) : Bool :=
  match v with
  | none => false
  | some s => s != ""

/-- The expression `v || null` for a body field that is absent or a string. -/
def orNull (v : Option String) : Option String :=
  if truthy v then v else none

/-! ## `POST /api/admin/login` -/

/-- A row of `admin_users`, with the columns the handler reads. -/
structure AdminUser where
  id : Nat
  username : String
  password_hash : String
  full_name : Option String
  deriving DecidableEq, Repr

/-- The payload handed to `jwt.sign`. -/
structure TokenPayload where
  id : Nat
  username : String
  role : String
  deriving DecidableEq, Repr

/-- The `user` object of the login response. -/
structure LoginUser where
  id : Nat
  username : String
  name : String
  deriving DecidableEq, Repr

/-- A response of the login handler: an error body with its status, or the token with the
user object (status 200). -/
inductive LoginResponse where
  | error (status : Nat) (error : String)
  | ok (token : String) (user : LoginUser)
  deriving DecidableEq, Repr

/-- The statement `SELECT * FROM admin_users WHERE username = ?` followed by `rows[0]`: the
first row whose user name equals the parameter under the collation. -/
def findAdmin (key : Char → Char) (users : List AdminUser) (username : String) :
    Option AdminUser :=
  users.find? (fun u => u.username.data.map key == username.data.map key)

/-- The handler of `POST /api/admin/login`.  `compare password hash` is `bcrypt.compare`,
`sign payload secret expiresIn` is `jwt.sign`, `secret` is `JWT_SECRET`. -/
def adminLogin (key : Char → Char) (compare : String → String → Bool)
    (sign : TokenPayload → String → String → String) (secret : String)
    (users : List AdminUser) (username password : Option String) : LoginResponse :=
  if !truthy username || !truthy password then
    LoginResponse.error 400 "Username and password required"
  else
    match findAdmin key users (username.getD "") with
    | none => LoginResponse.error 401 "Invalid credentials"
    | some user =>
      if !compare (password.getD "") user.password_hash then
        LoginResponse.error 401 "Invalid credentials"
      else
        LoginResponse.ok
          (sign { id := user.id, username := user.username, role := "admin" } secret "24h")
          { id := user.id, username := user.username,
            name := if truthy user.full_name then user.full_name.getD "" else user.username }

/-! ## `POST /api/contact` -/

/-- One item of a regular expression: a character class taken once, or taken one or more
times (`+`). -/
inductive RegexItem where
  | one (test : Char → Bool)
  | plus (test : Char → Bool)

/-- A class taken one or more times, followed by the rest of the expression `k`. -/
def matchPlus (test : Char → Bool) (k : List Char → Bool) : List Char → Bool
  | [] => false
  | c :: s => test c && (k s || matchPlus test k s)

/-- Whether a sequence of items, anchored by `^` and `$`, matches the whole text. -/
def matchItems : List RegexItem → List Char → Bool
  | [], s => s.isEmpty
  | RegexItem.one test :: rest, s =>
    match s with
    | [] => false
    | c :: s' => test c && matchItems rest s'
  | RegexItem.plus test :: rest, s => matchPlus test (matchItems rest) s

/-- The class `[^\s@]`. -/
def notSpaceOrAt (c : Char) : Bool :=
  !isStrWhiteSpace c && c != '@'

/-- The constant `emailRegex`, `/^[^\s@]+@[^\s@]+\.[^\s@]+$/`. -/
def emailRegex : List RegexItem :=
  [RegexItem.plus notSpaceOrAt, RegexItem.one (fun c => c == '@'),
   RegexItem.plus notSpaceOrAt, RegexItem.one (fun c => c == '.'),
   RegexItem.plus notSpaceOrAt]

/-- The call `emailRegex.test(email)`. -/
def emailRegexTest (email : String) : Bool :=
  matchItems emailRegex email.data

/-- Lower-casing of the basic Latin letters, with which `String.prototype.toLowerCase`
agrees on basic Latin text. -/
def asciiLower (s : String) : String :=
  ⟨s.data.map Char.toLower⟩

/-- The fields of `req.body` read by the contact handler, each absent or a string. -/
structure ContactBody where
  name : Option String
  email : Option String
  message : Option String
  phone : Option String
  subject : Option String
  deriving DecidableEq, Repr

/-- A response of the contact handler: the 400 body, the 201 body with its `data`, or the
500 body of the `catch` block. -/
inductive ContactResponse where
  | badRequest (message : String)
  | created (id : Nat) (name email : String) (created_at : Nat)
  | serverError (message : String)
  deriving DecidableEq, Repr

/-- The HTTP status of a contact response. -/
def ContactResponse.status : ContactResponse → Nat
  | .badRequest _ => 400
  | .created _ _ _ _ => 201
  | .serverError _ => 500

/-- The handler of `POST /api/contact` on a table.  `toLowerCase` is
`String.prototype.toLowerCase`, `now` the current time, `insertId` the id the database gives
the new row, `ip` the value of `req.ip || req.connection.remoteAddress` and `userAgent`
that of `req.get('User-Agent')`, each `none` when it is `undefined`.  The call
`pool.execute` throws on a bind value that is `undefined`, before any statement is sent,
and the `catch` block answers 500; with defined bind values the `INSERT` succeeds. -/
def createContact (toLowerCase : String → String) (now insertId : Nat)
    (ip userAgent : Option String) (table : List ContactMessage) (body : ContactBody) :
    List ContactMessage × ContactResponse :=
  if !truthy body.name || !truthy body.email || !truthy body.message then
    (table, ContactResponse.badRequest "Nama, email, dan pesan harus diisi")
  else if !emailRegexTest (body.email.getD "") then
    (table, ContactResponse.badRequest "Format email tidak valid")
  else if ip.isNone || userAgent.isNone then
    (table, ContactResponse.serverError "Terjadi kesalahan server. Silakan coba lagi nanti.")
  else
    let row : ContactMessage :=
      { id := insertId,
        name := trim (body.name.getD ""),
        email := toLowerCase (trim (body.email.getD "")),
        message := trim (body.message.getD ""),
        subject := if truthy body.subject then trim (body.subject.getD "") else "General Inquiry",
        status := Status.unread,
        source := "contact_form",
        ip_address := ip,
        user_agent := userAgent,
        read_at := none,
        replied_at := none,
        admin_notes := none,
        created_at := now,
        updated_at := now }
    (table ++ [row],
      ContactResponse.created insertId (trim (body.name.getD ""))
        (toLowerCase (trim (body.email.getD ""))) now)

/-- The words of the specification for the shape `local@domain.tld`: no white space, exactly
one `@`, a non-empty part before it, and a part after it that holds a `.` which is neither
its first nor its last character. -/
def emailShape (s : List Char) : Prop :=
  (∀ c ∈ s, isStrWhiteSpace c = false) ∧ s.count '@' = 1 ∧
    ∃ loc dom : List Char, s = loc ++ '@' :: dom ∧ loc ≠ [] ∧
      ∃ i : Nat, 0 < i ∧ i + 1 < dom.length ∧ dom[i]? = some '.'

/-! ## `GET /api/messages/:id` and `PUT /api/messages/:id`

The route parameter `:id` is `Option Nat`: `none` when the test `!id || isNaN(id)` rejects
it, `some n` when it passes and the database reads it as the row number `n`.  `now` is the
value of `NOW()`.  A response is its status, its `message` text and the record it carries. -/

/-- A response of the message handlers. -/
structure MessageResponse where
  status : Nat
  text : String
  record : Option ContactMessage
  deriving DecidableEq, Repr

/-- The statement `SELECT * FROM contact_messages WHERE id = ?` followed by `rows[0]`. -/
def findMessage (table : List ContactMessage) (id : Nat) : Option ContactMessage :=
  table.find? (fun r => r.id == id)

/-- The column `updated_at ... ON UPDATE CURRENT_TIMESTAMP`: a row that an `UPDATE` changes
gets the current time, a row it leaves as it was keeps its time. -/
def touchUpdatedAt (now : Nat) (old new : ContactMessage) : ContactMessage :=
  if new = old then old else { new with updated_at := now }

/-- The statement `UPDATE contact_messages SET ... WHERE id = ?`, the assignments given as
a function of the row. -/
def updateMessagesWhereId (now id : Nat) (set : ContactMessage → ContactMessage)
    (table : List ContactMessage) : List ContactMessage :=
  table.map (fun r => if r.id = id then touchUpdatedAt now r (set r) else r)

/-- The assignments `SET status = "read", read_at = NOW()`. -/
def markRead (now : Nat) (r : ContactMessage) : ContactMessage :=
  { r with status := Status.read, read_at := some now }

/-- The handler of `GET /api/messages/:id`: the table afterwards and the response, which
carries `rows[0]` as selected before the update. -/
def fetchMessage (now : Nat) (table : List ContactMessage) (id : Option Nat) :
    List ContactMessage × MessageResponse :=
  match id with
  | none => (table, { status := 400, text := "ID pesan tidak valid", record := none })
  | some n =>
    match findMessage table n with
    | none => (table, { status := 404, text := "Pesan tidak ditemukan", record := none })
    | some row =>
      let table' :=
        if row.status = Status.unread then updateMessagesWhereId now n (markRead now) table
        else table
      (table', { status := 200, text := "", record := some row })

/-- The value an `ENUM` column takes from a string parameter: the first enumeration value
whose label equals the string under the collation, none when there is no such value. -/
def enumOfParam (key : Char → Char) (param : String) : Option Status :=
  [Status.unread, Status.read, Status.replied, Status.archived].find?
    (fun st => statusEquals key st param)

/-- The assignments collected in `updates`: `status = ?` when `status` is truthy, with
`replied_at = NOW()` when it is the string `replied`, and `admin_notes = ?` when
`admin_notes` is not `undefined`. -/
def assignUpdates (key : Char → Char) (now : Nat) (status : Option String)
    (admin_notes : Option (Option String)) (r : ContactMessage) : ContactMessage :=
  { r with
    status := if truthy status then (enumOfParam key (status.getD "")).getD r.status
      else r.status,
    replied_at := if truthy status && status == some "replied" then some now
      else r.replied_at,
    admin_notes :=
      match admin_notes with
      | none => r.admin_notes
      | some v => v }

/-- The handler of `PUT /api/messages/:id`.  `status` is the body field, absent or a
string; `admin_notes` is `none` when the field is `undefined`, `some none` when it is
`null`.  A `status` that is no enumeration value makes the `UPDATE` fail (strict SQL mode),
which the handler answers with 500. -/
def updateMessage (key : Char → Char) (now : Nat) (table : List ContactMessage)
    (id : Option Nat) (status : Option String) (admin_notes : Option (Option String)) :
    List ContactMessage × MessageResponse :=
  match id with
  | none => (table, { status := 400, text := "ID pesan tidak valid", record := none })
  | some n =>
    match findMessage table n with
    | none => (table, { status := 404, text := "Pesan tidak ditemukan", record := none })
    | some _ =>
      if !truthy status && admin_notes.isNone then
        (table, { status := 400, text := "Tidak ada data yang diperbarui", record := none })
      else if truthy status && (enumOfParam key (status.getD "")).isNone then
        (table, { status := 500, text := "Gagal memperbarui pesan", record := none })
      else
        let table' := updateMessagesWhereId now n (assignUpdates key now status admin_notes) table
        (table', { status := 200, text := "Pesan berhasil diperbarui",
                   record := findMessage table' n })

/-- An operation on the message table: a public submission, a fetch by id or an update. -/
inductive MessageOp where
  | create (body : ContactBody) (ip userAgent : Option String) (insertId : Nat)
  | fetch (id : Option Nat)
  | update (id : Option Nat) (status : Option String) (admin_notes : Option (Option String))
  deriving DecidableEq, Repr

/-- The table after one operation performed at time `now`. -/
def applyMessageOp (toLowerCase : String → String) (key : Char → Char) (now : Nat)
    (table : List ContactMessage) : MessageOp → List ContactMessage
  | MessageOp.create body ip userAgent insertId =>
    (createContact toLowerCase now insertId ip userAgent table body).1
  | MessageOp.fetch id => (fetchMessage now table id).1
  | MessageOp.update id status admin_notes =>
    (updateMessage key now table id status admin_notes).1

/-- The table after a sequence of operations, each with the time it is performed at. -/
def runMessageOps (toLowerCase : String → String) (key : Char → Char) :
    List (Nat × MessageOp) → List ContactMessage → List ContactMessage
  | [], table => table
  | (now, op) :: ops, table =>
    runMessageOps toLowerCase key ops (applyMessageOp toLowerCase key now table op)

/-! ## The project handlers -/

/-- Modelled from the spec: the `projects` table, whose `CREATE TABLE` statement is not in
the repository.  The optional columns are nullable, `featured` is a boolean with default
false, `views` an integer counter with default 0, and `updated_at` changes only where a
statement assigns it. -/
structure Project where
  id : Nat
  title : String
  description : String
  technologies : String
  image_url : Option String
  project_url : Option String
  github_url : Option String
  category : Option String
  featured : Bool
  views : Nat
  created_at : Nat
  updated_at : Nat
  deriving DecidableEq, Repr

/-- The fields of `req.body` read by the project handlers: strings that may be absent, and
the boolean `featured` that may be absent. -/
structure ProjectBody where
  title : Option String
  description : Option String
  technologies : Option String
  image_url : Option String
  project_url : Option String
  github_url : Option String
  category : Option String
  featured : Option Bool
  deriving DecidableEq, Repr

/-- A response of the project handlers: the status, the `message` or `error` text, the
project record and the view count it carries. -/
structure ProjectResponse where
  status : Nat
  text : String
  project : Option Project
  views : Option Nat
  deriving DecidableEq, Repr

/-- The statement `SELECT * FROM projects WHERE id = ?` followed by `rows[0]`. -/
def findProject (store : List Project) (id : Nat) : Option Project :=
  store.find? (fun p => p.id == id)

/-- The statement `UPDATE projects SET ... WHERE id = ?`, the assignments given as a
function of the row. -/
def updateProjectsWhereId (id : Nat) (set : Project → Project) (store : List Project) :
    List Project :=
  store.map (fun p => if p.id = id then set p else p)

/-- The handler of `POST /api/projects` (after the token gate): the store afterwards and the
response.  `insertId` is the id the database gives the new row. -/
def createProject (now insertId : Nat) (store : List Project) (body : ProjectBody) :
    List Project × ProjectResponse :=
  if !truthy body.title || !truthy body.description || !truthy body.technologies then
    (store, { status := 400, text := "Title, description, and technologies are required",
              project := none, views := none })
  else
    let row : Project :=
      { id := insertId,
        title := trim (body.title.getD ""),
        description := trim (body.description.getD ""),
        technologies := trim (body.technologies.getD ""),
        image_url := orNull body.image_url,
        project_url := orNull body.project_url,
        github_url := orNull body.github_url,
        category := orNull body.category,
        featured := body.featured.getD false,
        views := 0,
        created_at := now,
        updated_at := now }
    let store' := store ++ [row]
    (store', { status := 201, text := "Project created successfully",
               project := findProject store' insertId, views := none })

/-- The expression `v?.trim() || ''` for a body field that is absent or a string. -/
def trimOrEmpty (v : Option String) : String :=
  match v with
  | none => ""
  | some s => trim s

/-- The assignments of the `UPDATE projects SET ...` statement of the update handler: the
eight body columns and `updated_at = CURRENT_TIMESTAMP`. -/
def replaceFields (now : Nat) (body : ProjectBody) (p : Project) : Project :=
  { p with
    title := trimOrEmpty body.title,
    description := trimOrEmpty body.description,
    technologies := trimOrEmpty body.technologies,
    image_url := orNull body.image_url,
    project_url := orNull body.project_url,
    github_url := orNull body.github_url,
    category := orNull body.category,
    featured := body.featured.getD false,
    updated_at := now }

/-- The assignment `views = views + 1` (`COALESCE(views, 0) + 1` on the detail route, the
same on a counter that is not null). -/
def incrementViews (p : Project) : Project :=
  { p with views := p.views + 1 }

/-- The handler of `PUT /api/projects/:id` (after the token gate). -/
def updateProject (now : Nat) (store : List Project) (id : Option Nat) (body : ProjectBody) :
    List Project × ProjectResponse :=
  match id with
  | none => (store, { status := 400, text := "Invalid project ID", project := none,
                      views := none })
  | some n =>
    match findProject store n with
    | none => (store, { status := 404, text := "Project not found", project := none,
                        views := none })
    | some _ =>
      let store' := updateProjectsWhereId n (replaceFields now body) store
      (store', { status := 200, text := "Project updated successfully",
                 project := findProject store' n, views := none })

/-- The handler of `GET /api/projects/:id`: the response carries `rows[0]` as selected
before the view count is incremented. -/
def fetchProject (store : List Project) (id : Option Nat) : List Project × ProjectResponse :=
  match id with
  | none => (store, { status := 400, text := "Invalid project ID", project := none,
                      views := none })
  | some n =>
    match findProject store n with
    | none => (store, { status := 404, text := "Project not found", project := none,
                        views := none })
    | some row =>
      (updateProjectsWhereId n incrementViews store,
        { status := 200, text := "", project := some row, views := none })

/-- The handler of `POST /api/projects/:id/view`; the parameter is the row number the
database reads it as.  Reading `rows[0].views` of an absent project throws, which the
handler answers with 500. -/
def viewProject (store : List Project) (id : Nat) : List Project × ProjectResponse :=
  let store' := updateProjectsWhereId id incrementViews store
  match findProject store' id with
  | none => (store', { status := 500, text := "Failed to update views", project := none,
                       views := none })
  | some row => (store', { status := 200, text := "", project := none,
                           views := some row.views })

/-- The file system as the delete handler uses it: `existsSync path`, and `unlinkSync path`
with `false` when the call throws. -/
structure FileSystem where
  existsSync : String → Bool
  unlinkSync : String → Bool

/-- The handler of `DELETE /api/projects/:id` (after the token gate).  `joinPath` is
`path.join(__dirname, ·)`.  The row is deleted first; a throwing `unlinkSync` lands in the
`catch` block of the handler. -/
def deleteProject (fs : FileSystem) (joinPath : String → String) (store : List Project)
    (id : Option Nat) : List Project × ProjectResponse :=
  match id with
  | none => (store, { status := 400, text := "Invalid project ID", project := none,
                      views := none })
  | some n =>
    match findProject store n with
    | none => (store, { status := 404, text := "Project not found", project := none,
                        views := none })
    | some row =>
      let store' := store.filter (fun p => p.id != n)
      if truthy row.image_url && fs.existsSync (joinPath (row.image_url.getD ""))
          && !fs.unlinkSync (joinPath (row.image_url.getD "")) then
        (store', { status := 500, text := "Failed to delete project", project := none,
                   views := none })
      else
        (store', { status := 200, text := "Project deleted successfully", project := none,
                   views := none })

/-- An operation on the project store: create, update, fetch by id or view ping. -/
inductive ProjectOp where
  | create (body : ProjectBody) (insertId : Nat)
  | update (id : Option Nat) (body : ProjectBody)
  | fetch (id : Option Nat)
  | view (id : Nat)
  deriving DecidableEq, Repr

/-- The store after one operation performed at time `now`. -/
def applyProjectOp (now : Nat) (store : List Project) : ProjectOp → List Project
  | ProjectOp.create body insertId => (createProject now insertId store body).1
  | ProjectOp.update id body => (updateProject now store id body).1
  | ProjectOp.fetch id => (fetchProject store id).1
  | ProjectOp.view id => (viewProject store id).1

/-- The store after a sequence of operations, each with the time it is performed at. -/
def runProjectOps : List (Nat × ProjectOp) → List Project → List Project
  | [], store => store
  | (now, op) :: ops, store => runProjectOps ops (applyProjectOp now store op)

/-- Whether an operation is a detail view or a view ping of the project `id`. -/
def countsView (id : Nat) : ProjectOp → Bool
  | ProjectOp.fetch (some n) => n == id
  | ProjectOp.view n => n == id
  | _ => false

/-- A project with the given id and title, three views, an image and a category. -/
def sampleProject (id : Nat) (title : String) : Project :=
  { id := id, title := title, description := "about", technologies := "lean",
    image_url := some "/uploads/1_pic.png", project_url := some "https://example.org",
    github_url := none, category := some "web", featured := true, views := 3,
    created_at := 10, updated_at := 20 }

/-- A store of two projects. -/
def sampleStore : List Project :=
  [sampleProject 1 "one", sampleProject 2 "two"]

/-- A body that holds the given title, description and technologies and nothing else. -/
def projectBody (title description technologies : Option String) : ProjectBody :=
  { title := title, description := description, technologies := technologies,
    image_url := none, project_url := none, github_url := none, category := none,
    featured := none }

/-! ## Theorems -/

/-! ### Decimal numerals are read back by `parseInt` -/

/-- A decimal digit is not white space. -/
theorem isStrWhiteSpace_of_digit (c : Char) (h : 48 ≤ c.toNat ∧ c.toNat ≤ 57) :
    isStrWhiteSpace c = false := by
  simp only [isStrWhiteSpace, Bool.or_eq_false_iff, Bool.and_eq_false_iff, beq_eq_false_iff_ne,
    decide_eq_false_iff_not]
  omega

/-- A decimal digit has its value in radix ten. -/
theorem digitValue_of_digit (c : Char) (h : 48 ≤ c.toNat ∧ c.toNat ≤ 57) :
    digitValue c = some (c.toNat - 48) := by
  simp [digitValue, h]

/-- Appending one digit multiplies by the radix and adds the digit. -/
theorem digitsValue_append (R : Nat) (ds : List Nat) (d : Nat) :
    digitsValue R (ds ++ [d]) = digitsValue R ds * R + d := by
  simp [digitsValue, List.foldl_append]

/-- On a list of decimal digits, all of it is read. -/
theorem radixDigits_of_digits (cs : List Char)
    (h : ∀ c ∈ cs, 48 ≤ c.toNat ∧ c.toNat ≤ 57) :
    radixDigits 10 cs = cs.map (fun c => c.toNat - 48) := by
  induction cs with
  | nil => rfl
  | cons c cs ih =>
    have hc := h c (List.mem_cons_self c cs)
    have hlt : c.toNat - 48 < 10 := by omega
    simp only [radixDigits, digitValue_of_digit c hc, hlt, if_true, List.map_cons]
    rw [ih (fun d hd => h d (List.mem_cons_of_mem c hd))]

/-- The character of a digit below ten is a decimal digit with that value. -/
theorem digitChar_spec (d : Nat) (h : d < 10) :
    (48 ≤ (Nat.digitChar d).toNat ∧ (Nat.digitChar d).toNat ≤ 57) ∧
      (Nat.digitChar d).toNat - 48 = d := by
  interval_cases d <;> decide

/-- The digits produced by `Nat.toDigitsCore` in base ten, given enough fuel. -/
theorem toDigitsCore_spec (fuel : Nat) :
    ∀ (n : Nat) (ds : List Char), n < fuel →
      ∃ cs : List Char, Nat.toDigitsCore 10 fuel n ds = cs ++ ds ∧ cs ≠ [] ∧
        (∀ c ∈ cs, 48 ≤ c.toNat ∧ c.toNat ≤ 57) ∧
        digitsValue 10 (cs.map (fun c => c.toNat - 48)) = n := by
  induction fuel with
  | zero => intro n ds h; omega
  | succ fuel ih =>
    intro n ds h
    have hd := digitChar_spec (n % 10) (Nat.mod_lt n (by decide))
    simp only [Nat.toDigitsCore]
    by_cases h0 : n / 10 = 0
    · refine ⟨[Nat.digitChar (n % 10)], by simp [h0], by simp, ?_, ?_⟩
      · intro c hc
        rw [List.mem_singleton] at hc
        subst hc
        exact hd.1
      · simp only [List.map_cons, List.map_nil, digitsValue, List.foldl_cons, List.foldl_nil]
        omega
    · have hlt : n / 10 < fuel := by omega
      obtain ⟨cs, hcs, -, hall, hval⟩ := ih (n / 10) (Nat.digitChar (n % 10) :: ds) hlt
      refine ⟨cs ++ [Nat.digitChar (n % 10)], by simp [h0, hcs], by simp, ?_, ?_⟩
      · intro c hc
        rcases List.mem_append.1 hc with hc | hc
        · exact hall c hc
        · rw [List.mem_singleton] at hc
          subst hc
          exact hd.1
      · rw [List.map_append, List.map_cons, List.map_nil, digitsValue_append, hval, hd.2]
        omega

/-- The function `parseInt` reads a non-empty list of decimal digits as the number it writes. -/
theorem parseIntChars_of_digits (cs : List Char) (hne : cs ≠ [])
    (h : ∀ c ∈ cs, 48 ≤ c.toNat ∧ c.toNat ≤ 57) :
    parseIntChars cs = some ((digitsValue 10 (cs.map (fun c => c.toNat - 48)) : Nat) : Int) := by
  obtain ⟨c, r, rfl⟩ := List.exists_cons_of_ne_nil hne
  have hc := h c (List.mem_cons_self c r)
  have htrim : trimStart (c :: r) = c :: r := by
    simp [trimStart, List.dropWhile, isStrWhiteSpace_of_digit c hc]
  have hminus : c ≠ '-' := by
    intro e; subst e; revert hc; decide
  have hplus : c ≠ '+' := by
    intro e; subst e; revert hc; decide
  have hzero : stripRadix (c :: r) = (10, c :: r) := by
    cases r with
    | nil => rfl
    | cons d r =>
      have hd := h d (List.mem_cons_of_mem c (List.mem_cons_self d r))
      have hx : d ≠ 'x' := by
        intro e; subst e; revert hd; decide
      have hX : d ≠ 'X' := by
        intro e; subst e; revert hd; decide
      simp [stripRadix, hx, hX]
  have hsign : stripSign (c :: r) = (false, c :: r) := by
    simp [stripSign, hminus, hplus]
  have hdig := radixDigits_of_digits (c :: r) h
  unfold parseIntChars
  rw [htrim, hsign]
  simp only [hzero, hdig, List.map_cons]
  simp

/-- The steps of `parseInt` read the decimal numeral of a natural number back. -/
theorem parseIntChars_toString (n : Nat) :
    parseIntChars (toString n).data = some (n : Int) := by
  obtain ⟨cs, hcs, hne, hall, hval⟩ := toDigitsCore_spec (n + 1) n [] (Nat.lt_succ_self n)
  have hdata : (toString n).data = cs := by
    show (Nat.repr n).data = cs
    simp [Nat.repr, Nat.toDigits, hcs, List.asString]
  rw [hdata, parseIntChars_of_digits cs hne hall, hval]

/-- An integer of magnitude below `2 ^ 53` is a double. -/
theorem toDouble_exact (m : Int) (h : m.natAbs < 2 ^ 53) : toDouble m = JsNumber.fin m := by
  unfold toDouble roundNat
  rw [if_pos h]
  simp only
  congr 1
  split_ifs <;> omega

/-- The function `parseInt` reads the decimal numeral of a natural number below `2 ^ 53`
back. -/
theorem parseInt_toString (n : Nat) (h : n < 2 ^ 53) :
    parseInt (toString n) = JsNumber.fin (n : Int) := by
  unfold parseInt
  rw [parseIntChars_toString]
  exact toDouble_exact _ (by simpa using h)

/-- A non-negative integer below `2 ^ 53` is printed as its decimal numeral. -/
theorem numberText_exact (bigText : Int → String) (n : Nat) (h : n < 2 ^ 53) :
    numberText bigText (JsNumber.fin (n : Int)) = toString n := by
  unfold numberText
  have h' : (n : Int).natAbs < 2 ^ 53 := by simpa using h
  simp only [h', if_true]
  rfl

/-- The database reads the decimal numeral of a natural number below `2 ^ 64` back. -/
theorem limitLiteral_toString (n : Nat) (h : n < 2 ^ 64) :
    limitLiteral (toString n) = some n := by
  obtain ⟨cs, hcs, hne, hall, hval⟩ := toDigitsCore_spec (n + 1) n [] (Nat.lt_succ_self n)
  have hdata : (toString n).data = cs := by
    show (Nat.repr n).data = cs
    simp [Nat.repr, Nat.toDigits, hcs, List.asString]
  unfold limitLiteral
  rw [hdata, radixDigits_of_digits cs hall, hval]
  simp only [ne_eq, hne, not_false_eq_true, List.length_map, true_and]
  rw [if_pos h]

/-- A finite result of `Math.max(1, x)` is at least one. -/
theorem one_le_of_mathMax (x : JsNumber) (v : Int) (h : mathMax 1 x = JsNumber.fin v) :
    1 ≤ v := by
  cases x with
  | nan => simp [mathMax] at h
  | fin w =>
    simp only [mathMax, JsNumber.fin.injEq] at h
    omega
  | inf negative =>
    cases negative
    · simp [mathMax] at h
    · simp only [mathMax, if_true, JsNumber.fin.injEq] at h
      omega

/-- The offset of a finite page and limit with a product below `2 ^ 53` is exact. -/
theorem offset_exact (p l : Int) (hp : 1 ≤ p) (hl : 1 ≤ l) (h : (p - 1) * l < 2 ^ 53) :
    offset (JsNumber.fin p) (JsNumber.fin l) = JsNumber.fin (exactOffset p l) ∧
      0 ≤ exactOffset p l := by
  have h0 : 0 ≤ (p - 1) * l := Int.mul_nonneg (by omega) (by omega)
  have h1 : p - 1 ≤ (p - 1) * l := by nlinarith
  have hp1 : (p - 1).natAbs < 2 ^ 53 := by omega
  have hpl : ((p - 1) * l).natAbs < 2 ^ 53 := by omega
  refine ⟨?_, h0⟩
  simp only [offset, minusOne, toDouble_exact _ hp1, times, toDouble_exact _ hpl, exactOffset]

set_option exponentiation.threshold 2000 in
set_option maxRecDepth 100000 in
/-- The effective limit of 310 nines is `Infinity`. -/
theorem limitNum_nines : limitNum (some (nines 310)) = JsNumber.inf false := by
  decide

/-- The decimal numeral of a natural number consists of decimal digits. -/
theorem toString_digits (n : Nat) :
    ∀ c ∈ (toString n).data, 48 ≤ c.toNat ∧ c.toNat ≤ 57 := by
  obtain ⟨cs, hcs, -, hall, -⟩ := toDigitsCore_spec (n + 1) n [] (Nat.lt_succ_self n)
  have hdata : (toString n).data = cs := by
    show (Nat.repr n).data = cs
    simp [Nat.repr, Nat.toDigits, hcs, List.asString]
  rw [hdata]
  exact hall

/-! ### Which strings upper-case to `ASC` -/

/-- A code point is determined by its number. -/
theorem char_of_toNat (c : Char) (k : Nat) (h : c.toNat = k) : c = Char.ofNat k := by
  rw [← h, Char.ofNat_toNat]

/-- A successful lookup returns an entry of the list. -/
theorem mem_of_lookup {α β : Type} [BEq α] [LawfulBEq α] (k : α) (v : β) :
    ∀ l : List (α × β), l.lookup k = some v → (k, v) ∈ l
  | [], h => by simp at h
  | (a, b) :: l, h => by
    rw [List.lookup_cons] at h
    by_cases hk : (k == a) = true
    · rw [hk] at h
      have ha : k = a := eq_of_beq hk
      have hb : b = v := by simpa using h
      subst ha; subst hb
      exact List.mem_cons_self _ _
    · have hk' : (k == a) = false := by simpa using hk
      rw [hk'] at h
      exact List.mem_cons_of_mem _ (mem_of_lookup k v l h)

/-- Every entry of the table has the shape checked by `specialShape`. -/
theorem specialUpper_shape : ∀ e ∈ specialUpper, specialShape e = true := by
  decide

/-- The forms the upper-case mapping of one code point can take. -/
theorem upperChar_forms (c : Char) :
    upperChar c = [c] ∨
    (∃ u : Char, (97 ≤ c.toNat ∧ c.toNat ≤ 122) ∧ upperChar c = [u] ∧ u.toNat = c.toNat - 32) ∨
    (c.toNat = 0x17F ∧ upperChar c = ['S']) ∨
    (∃ x, upperChar c = [x] ∧ x ≠ 'A' ∧ x ≠ 'S' ∧ x ≠ 'C') ∨
    (∃ x y r, upperChar c = x :: y :: r ∧ ¬ (x = 'A' ∧ y = 'S') ∧ ¬ (x = 'S' ∧ y = 'C')) := by
  by_cases h1 : 97 ≤ c.toNat ∧ c.toNat ≤ 122
  · right; left
    refine ⟨latinUpper.getD (c.toNat - 97) c, h1, by unfold upperChar; dsimp only; rw [if_pos h1], ?_⟩
    obtain ⟨h97, h122⟩ := h1
    generalize c.toNat = n at h97 h122
    interval_cases n <;> rfl
  · have hu : upperChar c = match specialUpper.lookup c.toNat with
        | some u => u
        | none => [c] := by
      unfold upperChar; dsimp only; rw [if_neg h1]
    cases hl : specialUpper.lookup c.toNat with
    | none => left; rw [hu, hl]
    | some u =>
      rw [hl] at hu
      have hs := specialUpper_shape _ (mem_of_lookup _ _ _ hl)
      right; right
      rw [hu]
      match u, hs with
      | [], hs => simp [specialShape] at hs
      | [x], hs =>
        simp only [specialShape, Bool.or_eq_true, Bool.and_eq_true, beq_iff_eq, bne_iff_ne] at hs
        rcases hs with ⟨h17, hx⟩ | hx
        · left; exact ⟨h17, by rw [hx]⟩
        · right; left; exact ⟨x, rfl, hx.1.1, hx.1.2, hx.2⟩
      | x :: y :: r, hs =>
        simp only [specialShape, Bool.and_eq_true, Bool.not_eq_true', Bool.and_eq_false_iff,
          beq_eq_false_iff_ne] at hs
        right; right
        refine ⟨x, y, r, rfl, ?_, ?_⟩
        · rintro ⟨hx, hy⟩; rcases hs.1 with h | h <;> simp_all
        · rintro ⟨hx, hy⟩; rcases hs.2 with h | h <;> simp_all

/-- Reading one letter of `A`, `S`, `C` off the front of an upper-cased text: the first code
point produced exactly that letter, and is the letter in either case or, for `S`, the long
s. -/
theorem upperChar_head (c : Char) (tl t : List Char) (x : Char)
    (hx : x = 'A' ∨ x = 'S' ∨ x = 'C')
    (hpair : ∀ y r, t = y :: r → (x = 'A' ∧ y = 'S') ∨ (x = 'S' ∧ y = 'C'))
    (h : upperChar c ++ tl = x :: t) :
    tl = t ∧ (c = x ∨ c.toNat = x.toNat + 32 ∨ (c.toNat = 0x17F ∧ x = 'S')) := by
  rcases upperChar_forms c with hc | ⟨u, hr, hc, hu⟩ | ⟨hn, hc⟩ | ⟨u, hc, h1, h2, h3⟩ |
    ⟨u, y, r, hc, h1, h2⟩
  · rw [hc] at h
    simp only [List.singleton_append, List.cons.injEq] at h
    exact ⟨h.2, Or.inl h.1⟩
  · rw [hc] at h
    simp only [List.singleton_append, List.cons.injEq] at h
    refine ⟨h.2, Or.inr (Or.inl ?_)⟩
    rw [← h.1, hu]
    omega
  · rw [hc] at h
    simp only [List.singleton_append, List.cons.injEq] at h
    exact ⟨h.2, Or.inr (Or.inr ⟨hn, h.1.symm⟩)⟩
  · rw [hc] at h
    simp only [List.singleton_append, List.cons.injEq] at h
    rcases hx with e | e | e
    · exact absurd (h.1.trans e) h1
    · exact absurd (h.1.trans e) h2
    · exact absurd (h.1.trans e) h3
  · rw [hc] at h
    simp only [List.cons_append, List.cons.injEq] at h
    obtain ⟨e1, e2⟩ := h
    subst e1
    rcases hpair y (r ++ tl) e2.symm with hp | hp
    · exact absurd hp h1
    · exact absurd hp h2

/-- The upper-case form of a code point is never empty. -/
theorem upperChar_ne_nil (c : Char) : upperChar c ≠ [] := by
  rcases upperChar_forms c with hc | ⟨u, -, hc, -⟩ | ⟨-, hc⟩ | ⟨u, hc, -⟩ | ⟨u, y, r, hc, -⟩ <;>
    rw [hc] <;> simp

/-- The strings that `toUpperCase` turns into `ASC`: the three letters in either case, the
middle one possibly the long s. -/
theorem toUpperCase_eq_ASC (s : String) :
    toUpperCase s = "ASC" ↔
      ∃ a b c, s.data = [a, b, c] ∧ (a = 'a' ∨ a = 'A') ∧
        (b = 's' ∨ b = 'S' ∨ b = Char.ofNat 0x17F) ∧ (c = 'c' ∨ c = 'C') := by
  rw [String.ext_iff]
  show s.data.flatMap upperChar = ['A', 'S', 'C'] ↔ _
  constructor
  · intro h
    match hd : s.data, h with
    | [], h => simp at h
    | [a], h =>
      simp only [List.flatMap_cons, List.flatMap_nil] at h
      have := upperChar_head a [] ['S', 'C'] 'A' (Or.inl rfl) (by simp) h
      simp at this
    | [a, b], h =>
      simp only [List.flatMap_cons, List.flatMap_nil] at h
      obtain ⟨h1, -⟩ := upperChar_head a _ ['S', 'C'] 'A' (Or.inl rfl) (by simp) h
      have := upperChar_head b [] ['C'] 'S' (Or.inr (Or.inl rfl)) (by simp) h1
      simp at this
    | a :: b :: c :: r, h =>
      simp only [List.flatMap_cons] at h
      obtain ⟨h1, ha⟩ := upperChar_head a _ ['S', 'C'] 'A' (Or.inl rfl) (by simp) h
      obtain ⟨h2, hb⟩ := upperChar_head b _ ['C'] 'S' (Or.inr (Or.inl rfl)) (by simp) h1
      obtain ⟨h3, hc⟩ := upperChar_head c _ [] 'C' (Or.inr (Or.inr rfl)) (by simp) h2
      have hr : r = [] := by
        cases r with
        | nil => rfl
        | cons d r =>
          simp only [List.flatMap_cons, List.append_eq_nil] at h3
          exact absurd h3.1 (upperChar_ne_nil d)
      subst hr
      refine ⟨a, b, c, rfl, ?_, ?_, ?_⟩
      · rcases ha with e | e | ⟨-, e⟩
        · exact Or.inr e
        · exact Or.inl (char_of_toNat a 97 e)
        · exact absurd e (by decide)
      · rcases hb with e | e | ⟨e, -⟩
        · exact Or.inr (Or.inl e)
        · exact Or.inl (char_of_toNat b 115 e)
        · exact Or.inr (Or.inr (char_of_toNat b 0x17F e))
      · rcases hc with e | e | ⟨-, e⟩
        · exact Or.inr e
        · exact Or.inl (char_of_toNat c 99 e)
        · exact absurd e (by decide)
  · rintro ⟨a, b, c, hd, ha, hb, hc⟩
    rw [hd]
    rcases ha with rfl | rfl <;> rcases hb with rfl | rfl | rfl <;> rcases hc with rfl | rfl <;>
      decide

/-! ### The statements -/

/-- The four shapes of the `WHERE` clause and of its parameters. -/
theorem buildWhere_eq (status search : Option String) :
    buildWhere status search =
      match statusApplies status, searchApplies search with
      | false, false => ("", [])
      | true, false => (" WHERE status = ?", [status.getD ""])
      | false, true =>
        (" WHERE (name LIKE ? OR email LIKE ? OR message LIKE ?)",
          ["%" ++ trim (search.getD "") ++ "%", "%" ++ trim (search.getD "") ++ "%",
            "%" ++ trim (search.getD "") ++ "%"])
      | true, true =>
        (" WHERE status = ? AND (name LIKE ? OR email LIKE ? OR message LIKE ?)",
          [status.getD "", "%" ++ trim (search.getD "") ++ "%",
            "%" ++ trim (search.getD "") ++ "%", "%" ++ trim (search.getD "") ++ "%"]) := by
  unfold buildWhere
  cases statusApplies status <;> cases searchApplies search <;> rfl

/-- The `WHERE` clause holds as many placeholders as it has bound parameters. -/
theorem placeholders_buildWhere (status search : Option String) :
    placeholders (buildWhere status search).1 = (buildWhere status search).2.length := by
  rw [buildWhere_eq]
  cases statusApplies status <;> cases searchApplies search <;> rfl

/-- C1: the count statement and the listing statement of `GET /api/messages` carry the same
`WHERE` clause text and the same ordered bound parameters, whatever `status` and `search`
are, and that clause has exactly one `?` per bound parameter. -/
theorem count_and_listing_share_where (bigText : Int → String) (q : Query) :
    (messagesStatement bigText q).sql =
      messagesTemplate (buildWhere q.status q.search).1 (sortColumn q.sortBy)
        (sortDirection q.sortOrder) (numberText bigText (limitNum q.limit))
        (numberText bigText (offset (pageNum q.page) (limitNum q.limit))) ∧
    (countStatement q).sql = countTemplate (buildWhere q.status q.search).1 ∧
    (messagesStatement bigText q).params = (countStatement q).params ∧
    (countStatement q).params = (buildWhere q.status q.search).2 ∧
    placeholders (buildWhere q.status q.search).1 = (countStatement q).params.length ∧
    placeholders (countStatement q).sql = (countStatement q).params.length := by
  refine ⟨rfl, rfl, ?_, rfl, placeholders_buildWhere q.status q.search, ?_⟩
  · simp [messagesStatement, countStatement]
  · simp only [countStatement]
    rw [buildWhere_eq]
    cases statusApplies q.status <;> cases searchApplies q.search <;> rfl

/-- The effective limit of a decimal numeral from one up and below `2 ^ 53` is that
number. -/
theorem limitNum_numeral (n : Nat) (h : 1 ≤ n) (hb : n < 2 ^ 53) :
    limitNum (some (toString n)) = JsNumber.fin (n : Int) := by
  have hn : (n : Int) ≠ 0 := by omega
  have hm : max (1 : Int) (n : Int) = (n : Int) := by omega
  simp only [limitNum, Option.getD_some, parseInt_toString n hb, orDefault, hn, if_false,
    mathMax, hm]

/-- A finite effective page is at least one. -/
theorem one_le_pageNum (page : Option String) (v : Int) (h : pageNum page = JsNumber.fin v) :
    1 ≤ v :=
  one_le_of_mathMax _ v h

/-- A finite effective limit is at least one. -/
theorem one_le_limitNum (limit : Option String) (v : Int)
    (h : limitNum limit = JsNumber.fin v) : 1 ≤ v :=
  one_le_of_mathMax _ v h

/-- The sort column is on the allow-list. -/
theorem sortColumn_mem (sortBy : Option String) :
    sortColumn sortBy ∈ ["created_at", "name", "status"] := by
  unfold sortColumn
  by_cases h : allowedSortColumns.contains (sortBy.getD "created_at") = true
  · rw [if_pos h]
    simpa [allowedSortColumns] using h
  · rw [if_neg h]
    decide

/-- C2, as stated, fails: the `limit` of 310 nines makes the effective limit of
`GET /api/messages` the number `Infinity`, so no integer bounds the effective limit over all
values of the `limit` parameter. -/
theorem limitNum_has_no_upper_bound :
    limitNum (some (nines 310)) = JsNumber.inf false ∧
    ¬ ∃ L : Int, ∀ limit : Option String, (limitNum limit).le (JsNumber.fin L) = true := by
  refine ⟨limitNum_nines, ?_⟩
  rintro ⟨L, hL⟩
  have h := hL (some (nines 310))
  rw [limitNum_nines] at h
  simp [JsNumber.le] at h

/-- C2, amended: the effective limit is not capped; for every integer `L` some value of the
`limit` parameter makes the effective limit greater than `L`. -/
theorem limitNum_is_not_capped (L : Int) :
    ∃ limit : Option String, (JsNumber.fin L).lt (limitNum limit) = true := by
  refine ⟨some (nines 310), ?_⟩
  rw [limitNum_nines]
  rfl

/-- C3, as stated, fails twice.  At `limit = "0"` the parameter parses to the integer `0`
and the effective limit is the default `10`, not `max(1, 0)`.  At the `limit` of 310 nines,
with no `page`, the effective limit is `Infinity` and the offset `0 * Infinity` is `NaN`,
which is not `>= 0`. -/
theorem limit_zero_takes_default :
    parseInt "0" = JsNumber.fin 0 ∧ limitNum (some "0") = JsNumber.fin 10 ∧
    limitNum (some "0") ≠ JsNumber.fin (max 1 0) ∧
    limitNum (some (nines 310)) = JsNumber.inf false ∧
    offset (pageNum none) (limitNum (some (nines 310))) = JsNumber.nan ∧
    (JsNumber.fin 0).le (offset (pageNum none) (limitNum (some (nines 310)))) = false := by
  refine ⟨by decide, by decide, by decide, limitNum_nines, ?_, ?_⟩
  · rw [limitNum_nines]
    decide
  · rw [limitNum_nines]
    decide

/-- C3, amended: pagination parsing is total and clamps.  The effective page is `1` when
`page` is absent or does not parse and `max(1, n)` when it parses to the number `n`; the
effective limit is `10` when `limit` is absent, does not parse or parses to `0`, and
`max(1, n)` when it parses to another number `n`.  The number that `parseInt` returns is the
integer written when that is below `2 ^ 53` in magnitude, and can be an infinity.  The
offset is the floating-point product `(pageNum - 1) * limitNum`; it is the exact product,
and not negative, when the page and the limit are finite and the exact product is below
`2 ^ 53`. -/
theorem pagination_clamps (page limit : Option String) :
    (pageNum page =
      match page.map parseInt with
      | none => JsNumber.fin 1
      | some JsNumber.nan => JsNumber.fin 1
      | some (JsNumber.fin n) => JsNumber.fin (max 1 n)
      | some (JsNumber.inf negative) =>
        if negative then JsNumber.fin 1 else JsNumber.inf false) ∧
    (limitNum limit =
      match limit.map parseInt with
      | none => JsNumber.fin 10
      | some JsNumber.nan => JsNumber.fin 10
      | some (JsNumber.fin n) => if n = 0 then JsNumber.fin 10 else JsNumber.fin (max 1 n)
      | some (JsNumber.inf negative) =>
        if negative then JsNumber.fin 1 else JsNumber.inf false) ∧
    (∀ (s : String) (n : Int), parseIntChars s.data = some n → n.natAbs < 2 ^ 53 →
      parseInt s = JsNumber.fin n) ∧
    offset (pageNum page) (limitNum limit) = times (minusOne (pageNum page)) (limitNum limit) ∧
    (∀ p l : Int, pageNum page = JsNumber.fin p → limitNum limit = JsNumber.fin l →
      (p - 1) * l < 2 ^ 53 →
      offset (pageNum page) (limitNum limit) = JsNumber.fin ((p - 1) * l) ∧
        0 ≤ (p - 1) * l) := by
  refine ⟨?_, ?_, ?_, rfl, ?_⟩
  · cases page with
    | none => decide
    | some s =>
      simp only [pageNum, Option.getD_some, Option.map_some']
      cases hp : parseInt s with
      | nan => simp [orDefault, mathMax]
      | fin n =>
        by_cases h0 : n = 0
        · subst h0; simp [orDefault, mathMax]
        · simp [orDefault, mathMax, h0]
      | inf negative => cases negative <;> simp [orDefault, mathMax]
  · cases limit with
    | none => decide
    | some s =>
      simp only [limitNum, Option.getD_some, Option.map_some']
      cases hp : parseInt s with
      | nan => simp [orDefault, mathMax]
      | fin n =>
        by_cases h0 : n = 0
        · subst h0; simp [orDefault, mathMax]
        · simp [orDefault, mathMax, h0]
      | inf negative => cases negative <;> simp [orDefault, mathMax]
  · intro s n hs hn
    unfold parseInt
    rw [hs]
    exact toDouble_exact n hn
  · intro p l hp hl hpl
    rw [hp, hl]
    exact offset_exact p l (one_le_pageNum page p hp) (one_le_limitNum limit l hl) hpl

/-- The amended C3 at `page = "3"` and `limit = "20"`: the offset is `40`. -/
theorem pagination_clamps_witness :
    pageNum (some "3") = JsNumber.fin 3 ∧ limitNum (some "20") = JsNumber.fin 20 ∧
    ((3 : Int) - 1) * 20 < 2 ^ 53 ∧
    offset (pageNum (some "3")) (limitNum (some "20")) = JsNumber.fin ((3 - 1) * 20) ∧
    0 ≤ ((3 : Int) - 1) * 20 :=
  ⟨by decide, by decide, by decide,
    (pagination_clamps (some "3") (some "20")).2.2.2.2 3 20 (by decide) (by decide)
      (by decide)⟩

/-- C4: the column placed in `ORDER BY` is one of `created_at`, `name`, `status`; it is
`sortBy` when `sortBy` is one of the three, and `created_at` for any other value and when
`sortBy` is absent. -/
theorem sortColumn_allow_listed (sortBy : Option String) :
    sortColumn sortBy ∈ ["created_at", "name", "status"] ∧
    (∀ s ∈ ["created_at", "name", "status"], sortBy = some s → sortColumn sortBy = s) ∧
    ((∀ s ∈ ["created_at", "name", "status"], sortBy ≠ some s) →
      sortColumn sortBy = "created_at") ∧
    sortColumn none = "created_at" := by
  refine ⟨sortColumn_mem sortBy, ?_, ?_, by decide⟩
  · intro s hs he
    subst he
    have h : allowedSortColumns.contains s = true := by
      simpa [allowedSortColumns] using hs
    unfold sortColumn
    rw [Option.getD_some, if_pos h]
  · intro h
    cases sortBy with
    | none => decide
    | some s =>
      have hn : ¬ allowedSortColumns.contains s = true := by
        intro hc
        have hm : s ∈ ["created_at", "name", "status"] := by
          simpa [allowedSortColumns] using hc
        exact h s hm rfl
      unfold sortColumn
      rw [Option.getD_some, if_neg hn]

/-- C4 at `sortBy = "name"` and at an injection attempt. -/
theorem sortColumn_allow_listed_witness :
    sortColumn (some "name") = "name" ∧
      sortColumn (some "id; DROP TABLE contact_messages") = "created_at" :=
  ⟨(sortColumn_allow_listed (some "name")).2.1 "name" (by decide) rfl,
    (sortColumn_allow_listed (some "id; DROP TABLE contact_messages")).2.2.1 (by decide)⟩

/-- C9, as stated, fails at `sortOrder = "asc"`: the value is not `ASC`, yet the direction
is `ASC` and not `DESC`, because the handler upper-cases the parameter before comparing. -/
theorem lowercase_asc_sorts_ascending :
    "asc" ≠ "ASC" ∧ sortDirection (some "asc") = "ASC" ∧ sortDirection (some "asc") ≠ "DESC" := by
  decide

/-- C9, amended: the direction placed in `ORDER BY` is always `ASC` or `DESC`; it is `ASC`
exactly when `sortOrder` upper-cases to `ASC`, that is when it consists of `A` or `a`, then
`S`, `s` or the long s (U+017F), then `C` or `c`; it is `DESC` for every other value and
when `sortOrder` is absent. -/
theorem sortDirection_spec (sortOrder : Option String) :
    (sortDirection sortOrder = "ASC" ∨ sortDirection sortOrder = "DESC") ∧
    (sortDirection sortOrder = "ASC" ↔
      ∃ s a b c, sortOrder = some s ∧ s.data = [a, b, c] ∧ (a = 'a' ∨ a = 'A') ∧
        (b = 's' ∨ b = 'S' ∨ b = Char.ofNat 0x17F) ∧ (c = 'c' ∨ c = 'C')) ∧
    (sortDirection sortOrder ≠ "ASC" → sortDirection sortOrder = "DESC") ∧
    sortDirection (some "ASC") = "ASC" ∧ sortDirection none = "DESC" := by
  have hdir : sortDirection sortOrder = "ASC" ↔ toUpperCase (sortOrder.getD "DESC") = "ASC" := by
    unfold sortDirection
    by_cases h : toUpperCase (sortOrder.getD "DESC") = "ASC"
    · simp [h]
    · rw [if_neg h]
      exact ⟨fun e => absurd e (by decide), fun e => absurd e h⟩
  have hor : sortDirection sortOrder = "ASC" ∨ sortDirection sortOrder = "DESC" := by
    unfold sortDirection
    by_cases h : toUpperCase (sortOrder.getD "DESC") = "ASC"
    · left; rw [if_pos h]
    · right; rw [if_neg h]
  refine ⟨hor, ?_, fun h => hor.resolve_left h, by decide, by decide⟩
  rw [hdir, toUpperCase_eq_ASC]
  cases sortOrder with
  | none =>
    constructor
    · rintro ⟨a, b, c, h, -⟩
      have hlen : (4 : Nat) = 3 := congrArg List.length h
      exact absurd hlen (by decide)
    · rintro ⟨s, a, b, c, h, -⟩
      exact absurd h (by simp)
  | some s =>
    constructor
    · rintro ⟨a, b, c, h⟩
      exact ⟨s, a, b, c, rfl, h⟩
    · rintro ⟨t, a, b, c, e, h⟩
      cases e
      exact ⟨a, b, c, h⟩

/-- The text of the `WHERE` clause is fixed by the two tests alone. -/
theorem whereClause_text (status search : Option String) :
    (buildWhere status search).1 =
      match statusApplies status, searchApplies search with
      | false, false => ""
      | true, false => " WHERE status = ?"
      | false, true => " WHERE (name LIKE ? OR email LIKE ? OR message LIKE ?)"
      | true, true => " WHERE status = ? AND (name LIKE ? OR email LIKE ? OR message LIKE ?)" := by
  rw [buildWhere_eq]
  cases statusApplies status <;> cases searchApplies search <;> rfl

/-- The effective page and limit are natural numbers. -/
theorem exists_nat_of_one_le (n : Int) (h : 1 ≤ n) : ∃ k : Nat, n = (k : Int) :=
  ⟨n.toNat, by omega⟩

/-- C5, as stated, fails at the `limit` of 310 nines: the listing text carries `Infinity`
and `NaN` in the two numeric holes, and neither is the numeral of a non-negative integer. -/
theorem sql_text_carries_infinity :
    (messagesStatement toString hugeLimitQuery).sql =
      messagesTemplate "" "created_at" "DESC" "Infinity" "NaN" ∧
    (¬ ∃ l : Nat, toString l = "Infinity") ∧ (¬ ∃ o : Nat, toString o = "NaN") := by
  refine ⟨?_, ?_, ?_⟩
  · simp only [messagesStatement, hugeLimitQuery, limitNum_nines]
    decide
  · rintro ⟨l, hl⟩
    have h := toString_digits l 'I' (by rw [hl]; decide)
    revert h
    decide
  · rintro ⟨o, ho⟩
    have h := toString_digits o 'N' (by rw [ho]; decide)
    revert h
    decide

/-- C5, amended: the SQL texts of the listing and count statements do not depend on the
values of `status` and `search`.  Two requests that agree on `page`, `limit`, `sortBy`,
`sortOrder`, on whether the status filter applies and on whether the search is non-blank get
the same two texts; each text is one of four fixed `WHERE` clauses, an allow-listed column,
`ASC` or `DESC` and the printed forms of the effective limit and of the offset put into the
fixed templates; the two printed forms are numerals of natural numbers when the page and the
limit are finite and the limit and the exact offset are below `2 ^ 53`; and the `status` and
`search` values travel in the bound parameters. -/
theorem sql_text_free_of_values (bigText : Int → String) (q₁ q₂ : Query)
    (hpage : q₁.page = q₂.page) (hlimit : q₁.limit = q₂.limit)
    (hsortBy : q₁.sortBy = q₂.sortBy) (hsortOrder : q₁.sortOrder = q₂.sortOrder)
    (hstatus : statusApplies q₁.status = statusApplies q₂.status)
    (hsearch : searchApplies q₁.search = searchApplies q₂.search) :
    (messagesStatement bigText q₁).sql = (messagesStatement bigText q₂).sql ∧
    (countStatement q₁).sql = (countStatement q₂).sql ∧
    (∃ (clause column direction : String),
      clause ∈ ["", " WHERE status = ?",
        " WHERE (name LIKE ? OR email LIKE ? OR message LIKE ?)",
        " WHERE status = ? AND (name LIKE ? OR email LIKE ? OR message LIKE ?)"] ∧
      column ∈ ["created_at", "name", "status"] ∧ direction ∈ ["ASC", "DESC"] ∧
      (messagesStatement bigText q₁).sql = messagesTemplate clause column direction
        (numberText bigText (limitNum q₁.limit))
        (numberText bigText (offset (pageNum q₁.page) (limitNum q₁.limit))) ∧
      (countStatement q₁).sql = countTemplate clause) ∧
    (∀ p l : Int, pageNum q₁.page = JsNumber.fin p → limitNum q₁.limit = JsNumber.fin l →
      l < 2 ^ 53 → (p - 1) * l < 2 ^ 53 →
      ∃ a b : Nat, numberText bigText (limitNum q₁.limit) = toString a ∧
        numberText bigText (offset (pageNum q₁.page) (limitNum q₁.limit)) = toString b) ∧
    (messagesStatement bigText q₁).params =
      (if statusApplies q₁.status then [q₁.status.getD ""] else []) ++
        (if searchApplies q₁.search then List.replicate 3 ("%" ++ trim (q₁.search.getD "") ++ "%")
          else []) ∧
    (countStatement q₁).params = (messagesStatement bigText q₁).params := by
  have hw : (buildWhere q₁.status q₁.search).1 = (buildWhere q₂.status q₂.search).1 := by
    rw [whereClause_text, whereClause_text, hstatus, hsearch]
  refine ⟨?_, ?_, ?_, ?_, ?_, by simp [messagesStatement, countStatement]⟩
  rotate_left 4
  · simp only [messagesStatement, List.nil_append]
    rw [buildWhere_eq]
    cases statusApplies q₁.status <;> cases searchApplies q₁.search <;> rfl
  · simp only [messagesStatement, hw, hpage, hlimit, hsortBy, hsortOrder]
  · simp only [countStatement, hw]
  · refine ⟨(buildWhere q₁.status q₁.search).1, sortColumn q₁.sortBy,
      sortDirection q₁.sortOrder, ?_, (sortColumn_mem q₁.sortBy), ?_, rfl, rfl⟩
    · rw [whereClause_text]
      cases statusApplies q₁.status <;> cases searchApplies q₁.search <;> simp
    · unfold sortDirection
      split_ifs <;> simp
  · intro p l hp hl hlb hpl
    have hp1 := one_le_pageNum q₁.page p hp
    have hl1 := one_le_limitNum q₁.limit l hl
    obtain ⟨hoff, hnn⟩ := offset_exact p l hp1 hl1 hpl
    obtain ⟨a, rfl⟩ := exists_nat_of_one_le l hl1
    obtain ⟨b, hb⟩ : ∃ b : Nat, exactOffset p (a : Int) = (b : Int) :=
      ⟨_, (Int.toNat_of_nonneg hnn).symm⟩
    have hb' : (b : Int) < 2 ^ 53 := by rw [← hb]; exact hpl
    refine ⟨a, b, ?_, ?_⟩
    · rw [hl]
      exact numberText_exact bigText a (by exact_mod_cast hlb)
    · rw [hp, hl, hoff, hb]
      exact numberText_exact bigText b (by exact_mod_cast hb')

/-- The amended C5 at a plain request and at one carrying SQL fragments in `status` and
`search`. -/
theorem sql_text_free_of_values_witness :
    statusApplies sampleQuery.status = statusApplies hostileQuery.status ∧
    searchApplies sampleQuery.search = searchApplies hostileQuery.search ∧
    (messagesStatement toString sampleQuery).sql =
      (messagesStatement toString hostileQuery).sql ∧
    (countStatement sampleQuery).sql = (countStatement hostileQuery).sql :=
  ⟨by decide, by decide,
    (sql_text_free_of_values toString sampleQuery hostileQuery rfl rfl rfl rfl (by decide)
      (by decide)).1,
    (sql_text_free_of_values toString sampleQuery hostileQuery rfl rfl rfl rfl (by decide)
      (by decide)).2.1⟩

/-! ### Pages -/

/-- The effective page of a decimal numeral from one up and below `2 ^ 53` is that
number. -/
theorem pageNum_numeral (n : Nat) (h : 1 ≤ n) (hb : n < 2 ^ 53) :
    pageNum (some (toString n)) = JsNumber.fin (n : Int) := by
  have hn : (n : Int) ≠ 0 := by omega
  have hm : max (1 : Int) (n : Int) = (n : Int) := by omega
  simp only [pageNum, Option.getD_some, parseInt_toString n hb, orDefault, hn, if_false,
    mathMax, hm]

/-- Ordering keeps the number of rows. -/
theorem length_orderRows (key : Char → Char) (column direction : String)
    (rows : List ContactMessage) : (orderRows key column direction rows).length = rows.length := by
  unfold orderRows
  split_ifs <;> exact List.length_mergeSort _

/-- The number of rows of a listing. -/
theorem length_execListing (key : Char → Char) (table : List ContactMessage) (clause : String)
    (params : List String) (column direction : String) (lim off : Int) :
    (execListing key table clause params column direction lim off).length =
      min lim.toNat ((selectRows key clause params table).length - off.toNat) := by
  simp [execListing, length_orderRows]

/-- The page count is the least number of pages of the given size that hold all rows. -/
theorem ceilDiv_le_iff (total lim k : Int) (h : 1 ≤ lim) :
    ceilDiv total lim ≤ k ↔ total ≤ k * lim := by
  have hpos : (0 : ℚ) < (lim : ℚ) := by exact_mod_cast (by omega : 0 < lim)
  unfold ceilDiv
  rw [Int.ceil_le, div_le_iff₀ hpos]
  exact_mod_cast Iff.rfl

/-- On a page and a limit sent as decimal numerals, with the page, the limit and the exact
offset below `2 ^ 53`, the handler answers 200 with the listing of that page. -/
theorem listMessages_exact (bigText : Int → String) (key : Char → Char)
    (table : List ContactMessage) (p l : Nat) (hp : 1 ≤ p) (hl : 1 ≤ l) (hpb : p < 2 ^ 53)
    (hlb : l < 2 ^ 53) (hob : (p - 1) * l < 2 ^ 53)
    (status search sortBy sortOrder : Option String) :
    listMessages bigText key table (numeralQuery p l status search sortBy sortOrder) =
      ListOutcome.ok (listMessagesAt key table p l status search sortBy sortOrder) := by
  have hP := pageNum_numeral p hp hpb
  have hL := limitNum_numeral l hl hlb
  have hcast : ((p : Int) - 1) * (l : Int) = (((p - 1) * l : Nat) : Int) := by
    push_cast [Nat.cast_sub hp]
    ring
  have hO : offset (JsNumber.fin (p : Int)) (JsNumber.fin (l : Int)) =
      JsNumber.fin (((p - 1) * l : Nat) : Int) := by
    rw [(offset_exact p l (by omega) (by omega) (by rw [hcast]; exact_mod_cast hob)).1,
      exactOffset, hcast]
  have h64 : (2 : Nat) ^ 53 ≤ 2 ^ 64 := by decide
  simp only [listMessages, numeralQuery, hP, hL, hO, numberText_exact bigText l hlb,
    numberText_exact bigText _ hob, limitLiteral_toString l (by omega),
    limitLiteral_toString ((p - 1) * l) (by omega), listMessagesAt, exactOffset, hcast]

/-- C7, as stated, fails at page `1` and the `limit` of 310 nines, a page and a limit from
one up: the effective limit is `Infinity`, the listing statement is rejected by the
database and the handler answers 500, with no rows and no page count. -/
theorem huge_limit_answers_500 :
    listMessages toString Char.toLower sampleTable hugeLimitQuery =
      ListOutcome.serverError := by
  simp only [listMessages, hugeLimitQuery, limitNum_nines]
  decide

/-- C7, amended: for every page `p ≥ 1` and limit `l ≥ 1`, sent as decimal numerals, with
`p`, `l` and `(p - 1) * l` below `2 ^ 53`, and every table, `GET /api/messages` answers 200
with at most `l` rows and reports `pages = ceil(total / l)`, the least integer whose
multiple by `l` reaches `total`. -/
theorem page_rows_and_page_count (bigText : Int → String) (key : Char → Char)
    (table : List ContactMessage) (p l : Nat) (hp : 1 ≤ p) (hl : 1 ≤ l) (hpb : p < 2 ^ 53)
    (hlb : l < 2 ^ 53) (hob : (p - 1) * l < 2 ^ 53)
    (status search sortBy sortOrder : Option String) :
    ∃ r : ListResponse,
      listMessages bigText key table (numeralQuery p l status search sortBy sortOrder) =
        ListOutcome.ok r ∧
      r.messages.length ≤ l ∧ r.pagination.page = p ∧ r.pagination.limit = l ∧
      r.pagination.pages = Int.ceil ((r.pagination.total : ℚ) / (l : ℚ)) ∧
      r.pagination.total ≤ r.pagination.pages * l ∧
      ∀ k : Int, r.pagination.total ≤ k * l → r.pagination.pages ≤ k := by
  have hl' : (1 : Int) ≤ (l : Int) := by omega
  refine ⟨_, listMessages_exact bigText key table p l hp hl hpb hlb hob status search sortBy
    sortOrder, ?_⟩
  simp only [listMessagesAt]
  refine ⟨?_, trivial, trivial, ?_, ?_, ?_⟩
  · rw [length_execListing]
    simp
  · simp [ceilDiv]
  · exact (ceilDiv_le_iff _ _ _ hl').1 le_rfl
  · intro k hk
    exact (ceilDiv_le_iff _ _ _ hl').2 hk

/-- The amended C7 on the second page of size two of the three-row table. -/
theorem page_rows_and_page_count_witness :
    1 ≤ 2 ∧ 2 < 2 ^ 53 ∧ (2 - 1) * 2 < 2 ^ 53 ∧
    ∃ r : ListResponse,
      listMessages toString Char.toLower sampleTable (numeralQuery 2 2 none none none none) =
        ListOutcome.ok r ∧
      r.messages.length ≤ 2 ∧ r.pagination.page = (2 : Nat) :=
  ⟨by decide, by decide, by decide,
    (page_rows_and_page_count toString Char.toLower sampleTable 2 2 (by decide) (by decide)
      (by decide) (by decide) (by decide) none none none none).imp
      (fun _ h => ⟨h.1, h.2.1, h.2.2.1⟩)⟩

/-- Pages of size `l` cut from `T` rows: the first `P` pages hold `min T (P * l)` rows. -/
theorem sum_page_sizes (T l : Nat) :
    ∀ P : Nat, (Finset.range P).sum (fun i => min l (T - i * l)) = min T (P * l)
  | 0 => by simp
  | P + 1 => by
    rw [Finset.sum_range_succ, sum_page_sizes T l P, Nat.succ_mul]
    omega

/-- C6: on an unchanged table, for every filter, every sort and every effective limit from
one up, the total of the count statement is the same on every page and equals the number of
rows of the listing statement summed over the pages `1..pages`. -/
theorem count_equals_rows_over_pages (key : Char → Char) (table : List ContactMessage)
    (lim : Int) (hlim : 1 ≤ lim) (status search sortBy sortOrder : Option String) :
    (∀ p : Int,
      (listMessagesAt key table p lim status search sortBy sortOrder).pagination.total =
        (listMessagesAt key table 1 lim status search sortBy sortOrder).pagination.total) ∧
    (((Finset.range
        (listMessagesAt key table 1 lim status search sortBy sortOrder).pagination.pages.toNat).sum
        (fun i => (listMessagesAt key table ((i : Int) + 1) lim status search sortBy
          sortOrder).messages.length) : Nat) : Int) =
      (listMessagesAt key table 1 lim status search sortBy sortOrder).pagination.total := by
  refine ⟨fun p => rfl, ?_⟩
  obtain ⟨l, rfl⟩ := exists_nat_of_one_le lim hlim
  simp only [listMessagesAt, length_execListing, exactOffset, execCount, List.nil_append]
  generalize (selectRows key (buildWhere status search).1 (buildWhere status search).2
    table).length = T
  have hoff : ∀ i : Nat, ((i : Int) + 1 - 1) * (l : Int) = ((i * l : Nat) : Int) := by
    intro i; push_cast; ring
  simp only [hoff, Int.toNat_ofNat, sum_page_sizes]
  have hle : (T : Int) ≤ ceilDiv T l * l := (ceilDiv_le_iff _ _ _ hlim).1 le_rfl
  have hnn : 0 ≤ ceilDiv (T : Int) (l : Int) := by
    by_contra hneg
    have : ceilDiv (T : Int) (l : Int) * l ≤ -1 * l :=
      Int.mul_le_mul_of_nonneg_right (by omega) (by omega)
    omega
  obtain ⟨P, hP⟩ : ∃ P : Nat, ceilDiv (T : Int) (l : Int) = (P : Int) :=
    ⟨_, (Int.toNat_of_nonneg hnn).symm⟩
  rw [hP] at hle ⊢
  rw [Int.toNat_ofNat]
  have hle' : T ≤ P * l := by exact_mod_cast hle
  rw [Nat.min_eq_left hle']

/-- C6 on the three-row table cut into pages of two. -/
theorem count_equals_rows_over_pages_witness :
    (1 : Int) ≤ 2 ∧
    (((Finset.range
        (listMessagesAt Char.toLower sampleTable 1 2 none none none none).pagination.pages.toNat).sum
        (fun i => (listMessagesAt Char.toLower sampleTable ((i : Int) + 1) 2 none none none
          none).messages.length) : Nat) : Int) =
      (listMessagesAt Char.toLower sampleTable 1 2 none none none none).pagination.total :=
  ⟨by decide,
    (count_equals_rows_over_pages Char.toLower sampleTable 2 (by decide) none none none none).2⟩

/-! ### The search condition -/

/-- A leading `%` lets the rest of the pattern match any suffix of the text. -/
theorem likeMatch_percent (key : Char → Char) (p t : List Char) :
    likeMatch key ('%' :: p) t = t.tails.any (fun u => likeMatch key p u) := by
  rw [likeMatch.eq_def]
  rfl

/-- A plain pattern character does not match the empty text. -/
theorem likeMatch_plain_nil (key : Char → Char) (c : Char) (p : List Char)
    (h1 : c ≠ '%') : likeMatch key (c :: p) [] = false := by
  rw [likeMatch.eq_def]
  simp [h1]

/-- A plain pattern character matches one character with the same key. -/
theorem likeMatch_plain_cons (key : Char → Char) (c : Char) (p : List Char) (x : Char)
    (u : List Char) (h1 : c ≠ '%') (h2 : c ≠ '_') (h3 : c ≠ '\\') :
    likeMatch key (c :: p) (x :: u) = (key c == key x && likeMatch key p u) := by
  rw [likeMatch.eq_def]
  simp [h1, h2, h3]

/-- A pattern of plain characters followed by `%` matches the texts it is a prefix of. -/
theorem likeMatch_plain_prefix (key : Char → Char) :
    ∀ (w : List Char), (∀ c ∈ w, c ≠ '%' ∧ c ≠ '_' ∧ c ≠ '\\') → ∀ t : List Char,
      (likeMatch key (w ++ ['%']) t = true ↔ w.map key <+: t.map key)
  | [], _, t => by
    have h : likeMatch key ['%'] t = true := by
      rw [likeMatch_percent, List.any_eq_true]
      exact ⟨[], (List.mem_tails _ _).2 List.nil_suffix, by rw [likeMatch.eq_def]; rfl⟩
    simpa using h
  | c :: w, hw, t => by
    obtain ⟨h1, h2, h3⟩ := hw c (List.mem_cons_self c w)
    have ih := likeMatch_plain_prefix key w (fun d hd => hw d (List.mem_cons_of_mem c hd))
    cases t with
    | nil => simp [likeMatch_plain_nil, h1]
    | cons x u =>
      rw [List.cons_append, likeMatch_plain_cons key c _ x u h1 h2 h3, Bool.and_eq_true,
        beq_iff_eq, ih u, List.map_cons, List.map_cons, List.cons_prefix_cons]

/-- A pattern of plain characters between two `%` matches the texts that contain it. -/
theorem likeMatch_plain_infix (key : Char → Char) (w : List Char)
    (hw : ∀ c ∈ w, c ≠ '%' ∧ c ≠ '_' ∧ c ≠ '\\') (t : List Char) :
    likeMatch key ('%' :: (w ++ ['%'])) t = true ↔ w.map key <:+: t.map key := by
  rw [likeMatch_percent, List.any_eq_true]
  simp only [List.mem_tails, likeMatch_plain_prefix key w hw]
  constructor
  · rintro ⟨u, ⟨v, rfl⟩, z, hz⟩
    refine ⟨v.map key, z, ?_⟩
    rw [List.map_append, ← hz, List.append_assoc]
  · rintro ⟨a, b, hab⟩
    refine ⟨t.drop a.length, List.drop_suffix _ _, b, ?_⟩
    rw [List.map_drop, ← hab, List.append_assoc, List.drop_left]

/-- The characters of the search parameter `%` + text + `%`. -/
theorem searchParam_data (w : String) : ("%" ++ w ++ "%").data = '%' :: (w.data ++ ['%']) := by
  simp [String.data_append]

/-- C8, as stated, fails at `search = "_"`: every row of the table is selected, and the text
`_` appears in no name, e-mail address or message. -/
theorem underscore_search_selects_all :
    searchApplies (some "_") = true ∧
    selectRows Char.toLower (buildWhere none (some "_")).1 (buildWhere none (some "_")).2
      sampleTable = sampleTable ∧
    rowsContaining Char.toLower (trim "_") sampleTable = [] := by
  decide

/-- C8, amended: for every non-blank search string whose trimmed text holds none of the
`LIKE` characters `%`, `_` and backslash, and with no status filter, the rows selected by
the predicate of `GET /api/messages` are exactly the rows in which the trimmed text appears,
under the collation, as a substring of the name, of the e-mail address or of the message. -/
theorem search_selects_containing_rows (key : Char → Char) (table : List ContactMessage)
    (status : Option String) (s : String)
    (hstatus : statusApplies status = false) (hsearch : searchApplies (some s) = true)
    (hplain : ∀ c ∈ (trim s).data, c ≠ '%' ∧ c ≠ '_' ∧ c ≠ '\\') :
    selectRows key (buildWhere status (some s)).1 (buildWhere status (some s)).2 table =
      rowsContaining key (trim s) table := by
  rw [buildWhere_eq, hstatus, hsearch]
  simp only [Option.getD_some, selectRows, rowsContaining]
  apply List.filter_congr
  intro r _
  have he : evalWhere key " WHERE (name LIKE ? OR email LIKE ? OR message LIKE ?)"
      ["%" ++ trim s ++ "%", "%" ++ trim s ++ "%", "%" ++ trim s ++ "%"] r =
      some (searchHolds key ("%" ++ trim s ++ "%") ("%" ++ trim s ++ "%")
        ("%" ++ trim s ++ "%") r) := rfl
  rw [he]
  have hl : ∀ v : String, likeColumn key ("%" ++ trim s ++ "%") v = true ↔
      appearsIn key (trim s) v := by
    intro v
    unfold likeColumn appearsIn
    rw [searchParam_data, likeMatch_plain_infix key _ hplain]
  rw [Bool.eq_iff_iff]
  simp [searchHolds, hl, or_assoc]

/-- The amended C8 for the search ` BOB `, which selects the two rows that mention bob. -/
theorem search_selects_containing_rows_witness :
    statusApplies (some "all") = false ∧ searchApplies (some " BOB ") = true ∧
    selectRows Char.toLower (buildWhere (some "all") (some " BOB ")).1
      (buildWhere (some "all") (some " BOB ")).2 sampleTable =
      rowsContaining Char.toLower (trim " BOB ") sampleTable :=
  ⟨by decide, by decide,
    search_selects_containing_rows Char.toLower sampleTable (some "all") " BOB " (by decide)
      (by decide) (by decide)⟩

/-! ### The token gate -/

/-- The first piece of a split is the text before the first space, the other pieces are the
split of the text after it. -/
theorem splitSpace_eq : ∀ cs : List Char,
    splitSpace cs = cs.takeWhile (fun c => c != ' ') ::
      (match cs.dropWhile (fun c => c != ' ') with
        | [] => []
        | _ :: rest => splitSpace rest)
  | [] => rfl
  | c :: cs => by
    by_cases h : c = ' '
    · subst h
      rfl
    · have hb : (c != ' ') = true := by simpa using h
      rw [splitSpace, if_neg h, splitSpace_eq cs, List.takeWhile_cons, List.dropWhile_cons, hb]
      rfl

/-- The token read by the middleware is the token segment of the header. -/
theorem bearerToken_eq (authHeader : Option String) :
    bearerToken authHeader = authHeader.bind tokenSegment := by
  cases authHeader with
  | none => rfl
  | some h =>
    simp only [bearerToken, Option.some_bind, tokenSegment]
    by_cases he : h = ""
    · subst he
      rfl
    · rw [if_neg he, splitSpace_eq]
      cases hd : h.data.dropWhile (fun c => c != ' ') with
      | nil => rfl
      | cons x rest =>
        simp only [List.get?_cons_succ]
        rw [splitSpace_eq rest]
        rfl

/-- C10: with `jwt.verify` as an oracle, the gate answers 401 exactly when the header is
missing or has no non-empty token segment after its first space; otherwise it answers 403
exactly when the verification of that token fails; otherwise it attaches the decoded claims
and calls the downstream handler once.  The downstream handler is not called when the gate
answers 401 or 403. -/
theorem gate_outcomes {Claims : Type} (verify : String → Option Claims)
    (authHeader : Option String) :
    (authenticateToken verify authHeader = [GateEffect.respond 401 "Access token required"] ↔
      authHeader.bind tokenSegment = none) ∧
    (respondedStatus (authenticateToken verify authHeader) = some 401 ↔
      authHeader.bind tokenSegment = none) ∧
    (∀ token, authHeader.bind tokenSegment = some token →
      (authenticateToken verify authHeader =
          [GateEffect.respond 403 "Invalid or expired token"] ↔ verify token = none) ∧
      (respondedStatus (authenticateToken verify authHeader) = some 403 ↔
        verify token = none) ∧
      (∀ user, verify token = some user →
        authenticateToken verify authHeader = [GateEffect.setUser user, GateEffect.next])) ∧
    (nextCalls (authenticateToken verify authHeader) = 1 ↔
      ∃ token user, authHeader.bind tokenSegment = some token ∧ verify token = some user) ∧
    nextCalls (authenticateToken verify authHeader) ≤ 1 ∧
    (respondedStatus (authenticateToken verify authHeader) ≠ none →
      nextCalls (authenticateToken verify authHeader) = 0) := by
  unfold authenticateToken
  rw [bearerToken_eq]
  cases hseg : authHeader.bind tokenSegment with
  | none => simp [nextCalls, respondedStatus]
  | some token =>
    cases hv : verify token with
    | none =>
      simp only [hv]
      refine ⟨by simp, by simp [respondedStatus], ?_, ?_, by simp [nextCalls],
        by simp [nextCalls]⟩
      · intro t ht
        cases ht
        simp [hv, respondedStatus]
      · simp only [nextCalls]
        constructor
        · intro h; exact absurd h (by decide)
        · rintro ⟨t, u, ht, hu⟩
          cases ht
          rw [hv] at hu
          cases hu
    | some user =>
      simp only [hv]
      refine ⟨by simp, by simp [respondedStatus], ?_, ?_, by simp [nextCalls],
        by simp [respondedStatus]⟩
      · intro t ht
        cases ht
        simp [hv, respondedStatus]
      · simp only [nextCalls]
        exact ⟨fun _ => ⟨token, user, rfl, hv⟩, fun _ => trivial⟩

/-- C10 at a header with a token that verifies. -/
theorem gate_outcomes_witness :
    tokenSegment "Bearer abc.def.ghi" = some "abc.def.ghi" ∧
    authenticateToken (fun t => if t = "abc.def.ghi" then some 7 else none)
      (some "Bearer abc.def.ghi") = [GateEffect.setUser 7, GateEffect.next] :=
  ⟨by decide,
    (gate_outcomes (fun t => if t = "abc.def.ghi" then some 7 else none)
      (some "Bearer abc.def.ghi")).2.2.1 "abc.def.ghi" (by decide) |>.2.2 7 (by decide)⟩

/-! ### The login handler -/

/-- A non-empty string is truthy. -/
theorem truthy_some (s : String) (h : s ≠ "") : truthy (some s) = true := by
  simp [truthy, h]

/-- C11: for non-empty user name and password, the login handler answers an unknown user
name and a known user name with a wrong password with the same response, status 401 and
the one error text; it issues a token only when the user exists and the password
comparison succeeds, and the token is then signed over the id and user name of the stored
user and the role `admin`, with the expiry `24h`. -/
theorem login_responses (key : Char → Char) (compare : String → String → Bool)
    (sign : TokenPayload → String → String → String) (secret : String)
    (users : List AdminUser) (username password : String)
    (hu : username ≠ "") (hp : password ≠ "") :
    (findAdmin key users username = none →
      adminLogin key compare sign secret users (some username) (some password) =
        LoginResponse.error 401 "Invalid credentials") ∧
    (∀ u, findAdmin key users username = some u → compare password u.password_hash = false →
      adminLogin key compare sign secret users (some username) (some password) =
        LoginResponse.error 401 "Invalid credentials") ∧
    (∀ username' password' : String, username' ≠ "" → password' ≠ "" →
      findAdmin key users username = none →
      (∃ u, findAdmin key users username' = some u ∧
        compare password' u.password_hash = false) →
      adminLogin key compare sign secret users (some username) (some password) =
        adminLogin key compare sign secret users (some username') (some password')) ∧
    (∀ token user,
      adminLogin key compare sign secret users (some username) (some password) =
        LoginResponse.ok token user →
      ∃ u, findAdmin key users username = some u ∧ compare password u.password_hash = true ∧
        token = sign { id := u.id, username := u.username, role := "admin" } secret "24h" ∧
        user.id = u.id ∧ user.username = u.username) ∧
    (∀ u, findAdmin key users username = some u → compare password u.password_hash = true →
      ∃ user, adminLogin key compare sign secret users (some username) (some password) =
        LoginResponse.ok
          (sign { id := u.id, username := u.username, role := "admin" } secret "24h") user) := by
  have hunknown : ∀ (n p : String), n ≠ "" → p ≠ "" → findAdmin key users n = none →
      adminLogin key compare sign secret users (some n) (some p) =
        LoginResponse.error 401 "Invalid credentials" := by
    intro n p hn hp' hf
    simp [adminLogin, truthy_some n hn, truthy_some p hp', hf]
  have hwrong : ∀ (n p : String) (u : AdminUser), n ≠ "" → p ≠ "" →
      findAdmin key users n = some u → compare p u.password_hash = false →
      adminLogin key compare sign secret users (some n) (some p) =
        LoginResponse.error 401 "Invalid credentials" := by
    intro n p u hn hp' hf hc
    simp [adminLogin, truthy_some n hn, truthy_some p hp', hf, hc]
  refine ⟨hunknown username password hu hp, fun u => hwrong username password u hu hp, ?_, ?_,
    ?_⟩
  · rintro n p hn hp' hf ⟨u, hfu, hc⟩
    rw [hunknown username password hu hp hf, hwrong n p u hn hp' hfu hc]
  · intro token user h
    cases hf : findAdmin key users username with
    | none =>
      rw [hunknown username password hu hp hf] at h
      cases h
    | some u =>
      cases hc : compare password u.password_hash with
      | false =>
        rw [hwrong username password u hu hp hf hc] at h
        cases h
      | true =>
        simp only [adminLogin, truthy_some username hu, truthy_some password hp, hf, hc,
          Option.getD_some, Bool.not_true, Bool.or_self, Bool.false_eq_true, if_false,
          LoginResponse.ok.injEq] at h
        obtain ⟨ht, hu'⟩ := h
        refine ⟨u, rfl, hc, ht.symm, ?_, ?_⟩ <;> rw [← hu']
  · intro u hf hc
    simp [adminLogin, truthy_some username hu, truthy_some password hp, hf, hc]

/-- C11 on a store of one administrator: an unknown name and a wrong password get the same
answer. -/
theorem login_responses_witness :
    "root" ≠ "" ∧ "guess" ≠ "" ∧
    adminLogin id (fun p h => p == "secret" && h == "hash") (fun p s e => p.username ++ s ++ e)
        "key" [{ id := 1, username := "Admin", password_hash := "hash", full_name := none }]
        (some "root") (some "guess") =
      adminLogin id (fun p h => p == "secret" && h == "hash")
        (fun p s e => p.username ++ s ++ e) "key"
        [{ id := 1, username := "Admin", password_hash := "hash", full_name := none }]
        (some "Admin") (some "guess") :=
  ⟨by decide, by decide,
    (login_responses id (fun p h => p == "secret" && h == "hash")
      (fun p s e => p.username ++ s ++ e) "key"
      [{ id := 1, username := "Admin", password_hash := "hash", full_name := none }]
      "root" "guess" (by decide) (by decide)).2.2.1 "Admin" "guess" (by decide) (by decide)
      (by decide)
      ⟨{ id := 1, username := "Admin", password_hash := "hash", full_name := none },
        by decide, by decide⟩⟩

/-! ### The contact form -/

/-- The outcomes of the contact handler.  It answers 400 and stores nothing exactly when
`name`, `email` or `message` is missing or empty or the e-mail address fails the pattern.
Otherwise, when the requester address or the `User-Agent` header is undefined, it answers
500 and stores nothing; when both are defined it stores exactly one message, with the name
and the message trimmed, the e-mail address trimmed and lower-cased, the subject trimmed or
`General Inquiry` when none is given, and answers 201 with the trimmed name and the
lower-cased e-mail address. -/
theorem createContact_outcomes (toLowerCase : String → String) (now insertId : Nat)
    (ip userAgent : Option String) (table : List ContactMessage) (body : ContactBody) :
    ((createContact toLowerCase now insertId ip userAgent table body).2.status = 400 ↔
      (truthy body.name = false ∨ truthy body.email = false ∨ truthy body.message = false ∨
        emailRegexTest (body.email.getD "") = false)) ∧
    ((truthy body.name = false ∨ truthy body.email = false ∨ truthy body.message = false ∨
        emailRegexTest (body.email.getD "") = false) →
      (createContact toLowerCase now insertId ip userAgent table body).1 = table) ∧
    (¬ (truthy body.name = false ∨ truthy body.email = false ∨ truthy body.message = false ∨
        emailRegexTest (body.email.getD "") = false) →
      (ip = none ∨ userAgent = none) →
      createContact toLowerCase now insertId ip userAgent table body =
        (table,
          ContactResponse.serverError "Terjadi kesalahan server. Silakan coba lagi nanti.")) ∧
    (¬ (truthy body.name = false ∨ truthy body.email = false ∨ truthy body.message = false ∨
        emailRegexTest (body.email.getD "") = false) →
      ip ≠ none → userAgent ≠ none →
      ∃ row : ContactMessage,
        (createContact toLowerCase now insertId ip userAgent table body).1 = table ++ [row] ∧
        row.name = trim (body.name.getD "") ∧
        row.message = trim (body.message.getD "") ∧
        row.email = toLowerCase (trim (body.email.getD "")) ∧
        row.subject =
          (if truthy body.subject then trim (body.subject.getD "") else "General Inquiry") ∧
        row.status = Status.unread ∧ row.source = "contact_form" ∧
        (createContact toLowerCase now insertId ip userAgent table body).2 =
          ContactResponse.created insertId (trim (body.name.getD ""))
            (toLowerCase (trim (body.email.getD ""))) now ∧
        (createContact toLowerCase now insertId ip userAgent table body).2.status = 201) := by
  unfold createContact
  cases hn : truthy body.name <;> cases he : truthy body.email <;>
    cases hm : truthy body.message <;> cases hr : emailRegexTest (body.email.getD "") <;>
    cases ip <;> cases userAgent <;>
    simp [ContactResponse.status]

/-- C12 fails on the code: a submission with a name, an e-mail address that passes the
pattern and a message, sent without a `User-Agent` header, is answered with 500 and nothing
is stored, where the claim has one stored message and 201; the same submission sent with
the header is stored and answered with 201. -/
theorem contact_without_user_agent_answers_500 :
    truthy (some " Dan ") = true ∧ truthy (some "Dan@Example.org") = true ∧
    truthy (some " hi ") = true ∧ emailRegexTest "Dan@Example.org" = true ∧
    createContact asciiLower 1000 4 (some "10.0.0.1") none sampleTable
      { name := some " Dan ", email := some "Dan@Example.org", message := some " hi ",
        phone := none, subject := none } =
      (sampleTable,
        ContactResponse.serverError "Terjadi kesalahan server. Silakan coba lagi nanti.") ∧
    (createContact asciiLower 1000 4 (some "10.0.0.1") (some "curl/8.5.0") sampleTable
      { name := some " Dan ", email := some "Dan@Example.org", message := some " hi ",
        phone := none, subject := none }).2 =
      ContactResponse.created 4 "Dan" "dan@example.org" 1000 := by
  decide

/-! ### The e-mail pattern -/

/-- A class taken one or more times and then `k`: a non-empty run of the class, then a
rest that `k` accepts. -/
theorem matchPlus_iff (test : Char → Bool) (k : List Char → Bool) :
    ∀ s : List Char, matchPlus test k s = true ↔
      ∃ a b, s = a ++ b ∧ a ≠ [] ∧ (∀ c ∈ a, test c = true) ∧ k b = true
  | [] => by
    simp only [matchPlus, Bool.false_eq_true, false_iff]
    rintro ⟨a, b, h, ha, -⟩
    cases a with
    | nil => exact ha rfl
    | cons x a => simp at h
  | c :: s => by
    simp only [matchPlus, Bool.and_eq_true, Bool.or_eq_true, matchPlus_iff test k s]
    constructor
    · rintro ⟨hc, hk | ⟨a, b, rfl, -, ha, hb⟩⟩
      · exact ⟨[c], s, rfl, by simp, by simpa using hc, hk⟩
      · refine ⟨c :: a, b, rfl, by simp, ?_, hb⟩
        intro d hd
        rcases List.mem_cons.1 hd with rfl | hd
        · exact hc
        · exact ha d hd
    · rintro ⟨a, b, h, hne, ha, hb⟩
      cases a with
      | nil => exact absurd rfl hne
      | cons x a =>
        simp only [List.cons_append, List.cons.injEq] at h
        obtain ⟨rfl, rfl⟩ := h
        refine ⟨ha c (List.mem_cons_self c a), ?_⟩
        cases a with
        | nil => left; simpa using hb
        | cons y a =>
          right
          exact ⟨y :: a, b, rfl, by simp, fun d hd => ha d (List.mem_cons_of_mem c hd), hb⟩

/-- The pattern accepts exactly the texts `A@B.C` with `A`, `B`, `C` non-empty runs of
characters that are neither white space nor `@`. -/
theorem emailRegex_iff (s : List Char) :
    matchItems emailRegex s = true ↔
      ∃ A B C : List Char, s = A ++ '@' :: (B ++ '.' :: C) ∧
        A ≠ [] ∧ B ≠ [] ∧ C ≠ [] ∧
        (∀ c ∈ A, notSpaceOrAt c = true) ∧ (∀ c ∈ B, notSpaceOrAt c = true) ∧
        (∀ c ∈ C, notSpaceOrAt c = true) := by
  have hone : ∀ (x : Char) (rest : List RegexItem) (t : List Char),
      matchItems (RegexItem.one (fun c => c == x) :: rest) t = true ↔
        ∃ u, t = x :: u ∧ matchItems rest u = true := by
    intro x rest t
    cases t with
    | nil => simp [matchItems]
    | cons c u =>
      simp only [matchItems, Bool.and_eq_true, beq_iff_eq, List.cons.injEq]
      constructor
      · rintro ⟨rfl, h⟩; exact ⟨u, ⟨rfl, rfl⟩, h⟩
      · rintro ⟨v, ⟨rfl, rfl⟩, h⟩; exact ⟨rfl, h⟩
  have hlast : ∀ t : List Char, matchItems [RegexItem.plus notSpaceOrAt] t = true ↔
      t ≠ [] ∧ ∀ c ∈ t, notSpaceOrAt c = true := by
    intro t
    simp only [matchItems, matchPlus_iff, List.isEmpty_iff]
    constructor
    · rintro ⟨a, b, rfl, ha, hall, rfl⟩
      simpa using ⟨ha, hall⟩
    · rintro ⟨ht, hall⟩
      exact ⟨t, [], by simp, ht, hall, rfl⟩
  have hmid : ∀ t : List Char,
      matchItems [RegexItem.plus notSpaceOrAt, RegexItem.one (fun c => c == '.'),
        RegexItem.plus notSpaceOrAt] t = true ↔
      ∃ B C : List Char, t = B ++ '.' :: C ∧ B ≠ [] ∧ C ≠ [] ∧
        (∀ c ∈ B, notSpaceOrAt c = true) ∧ (∀ c ∈ C, notSpaceOrAt c = true) := by
    intro t
    rw [matchItems, matchPlus_iff]
    constructor
    · rintro ⟨B, b, rfl, hB, hBall, hb⟩
      obtain ⟨C, rfl, hC⟩ := (hone '.' _ b).1 hb
      obtain ⟨hCne, hCall⟩ := (hlast C).1 hC
      exact ⟨B, C, rfl, hB, hCne, hBall, hCall⟩
    · rintro ⟨B, C, rfl, hB, hC, hBall, hCall⟩
      exact ⟨B, '.' :: C, rfl, hB, hBall, (hone '.' _ _).2 ⟨C, rfl, (hlast C).2 ⟨hC, hCall⟩⟩⟩
  unfold emailRegex
  rw [matchItems, matchPlus_iff]
  constructor
  · rintro ⟨A, b, rfl, hA, hAall, hb⟩
    obtain ⟨u, rfl, hu⟩ := (hone '@' _ b).1 hb
    obtain ⟨B, C, rfl, hB, hC, hBall, hCall⟩ := (hmid u).1 hu
    exact ⟨A, B, C, rfl, hA, hB, hC, hAall, hBall, hCall⟩
  · rintro ⟨A, B, C, rfl, hA, hB, hC, hAall, hBall, hCall⟩
    exact ⟨A, '@' :: (B ++ '.' :: C), rfl, hA, hAall,
      (hone '@' _ _).2 ⟨_, rfl, (hmid _).2 ⟨B, C, rfl, hB, hC, hBall, hCall⟩⟩⟩

/-- What the class `[^\s@]` says of a character. -/
theorem notSpaceOrAt_iff (c : Char) :
    notSpaceOrAt c = true ↔ isStrWhiteSpace c = false ∧ c ≠ '@' := by
  simp [notSpaceOrAt]

/-- A text without white space is left as it is by `trim`. -/
theorem trim_of_no_space (s : String) (h : ∀ c ∈ s.data, isStrWhiteSpace c = false) :
    trim s = s := by
  have hdrop : ∀ l : List Char, (∀ c ∈ l, isStrWhiteSpace c = false) →
      l.dropWhile isStrWhiteSpace = l := by
    intro l hl
    cases l with
    | nil => rfl
    | cons c l =>
      rw [List.dropWhile_cons_of_neg]
      rw [hl c (List.mem_cons_self c l)]
      decide
  apply String.ext
  show trimEnd (trimStart s.data) = s.data
  unfold trimEnd trimStart
  rw [hdrop s.data h, hdrop s.data.reverse (fun c hc => h c (List.mem_reverse.1 hc)),
    List.reverse_reverse]

/-- C20: the e-mail pattern of `POST /api/contact` accepts exactly the strings of the shape
`local@domain.tld`: no white space, exactly one `@`, a non-empty part before it, and after
it a part with a `.` that is neither its first nor its last character.  Every accepted
address is unchanged by trimming. -/
theorem email_pattern_shape (email : String) :
    (emailRegexTest email = true ↔ emailShape email.data) ∧
    (emailRegexTest email = true → trim email = email) := by
  have hiff : emailRegexTest email = true ↔ emailShape email.data := by
    unfold emailRegexTest emailShape
    rw [emailRegex_iff]
    constructor
    · rintro ⟨A, B, C, hs, hA, hB, hC, hAall, hBall, hCall⟩
      rw [hs]
      have hAat : '@' ∉ A := fun h => ((notSpaceOrAt_iff _).1 (hAall _ h)).2 rfl
      have hBat : '@' ∉ B := fun h => ((notSpaceOrAt_iff _).1 (hBall _ h)).2 rfl
      have hCat : '@' ∉ C := fun h => ((notSpaceOrAt_iff _).1 (hCall _ h)).2 rfl
      refine ⟨?_, ?_, A, B ++ '.' :: C, rfl, hA, B.length, ?_, ?_, ?_⟩
      · intro c hc
        simp only [List.mem_append, List.mem_cons] at hc
        rcases hc with h | rfl | h | rfl | h
        · exact ((notSpaceOrAt_iff _).1 (hAall _ h)).1
        · decide
        · exact ((notSpaceOrAt_iff _).1 (hBall _ h)).1
        · decide
        · exact ((notSpaceOrAt_iff _).1 (hCall _ h)).1
      · have hdot : (('.' : Char) == '@') = false := by decide
        simp [List.count_append, List.count_cons, List.count_eq_zero_of_not_mem hAat,
          List.count_eq_zero_of_not_mem hBat, List.count_eq_zero_of_not_mem hCat, hdot]
      · exact List.length_pos.2 hB
      · have := List.length_pos.2 hC
        simp only [List.length_append, List.length_cons]
        omega
      · rw [List.getElem?_append_right (le_refl _)]
        simp
    · rintro ⟨hws, hcount, loc, dom, hs, hloc, i, hi0, hi1, hdot⟩
      rw [hs] at hws hcount
      have hc : List.count '@' loc + List.count '@' dom = 0 := by
        simp only [List.count_append, List.count_cons, beq_self_eq_true, if_true] at hcount
        omega
      have hlocat : '@' ∉ loc := List.count_eq_zero.1 (by omega)
      have hdomat : '@' ∉ dom := List.count_eq_zero.1 (by omega)
      have hilt : i < dom.length := by omega
      obtain ⟨_, hget⟩ := List.getElem?_eq_some.1 hdot
      have hsplit : dom = dom.take i ++ '.' :: dom.drop (i + 1) := by
        conv_lhs => rw [← List.take_append_drop i dom, List.drop_eq_getElem_cons hilt, hget]
      have hgood : ∀ c ∈ dom, notSpaceOrAt c = true := by
        intro c hc
        refine (notSpaceOrAt_iff c).2 ⟨hws c ?_, fun e => hdomat (e ▸ hc)⟩
        simp [hc]
      refine ⟨loc, dom.take i, dom.drop (i + 1), ?_, hloc, ?_, ?_, ?_, ?_, ?_⟩
      · rw [hs, ← hsplit]
      · intro h
        have := congrArg List.length h
        simp only [List.length_take, List.length_nil] at this
        omega
      · intro h
        have := congrArg List.length h
        simp only [List.length_drop, List.length_nil] at this
        omega
      · intro c hc
        refine (notSpaceOrAt_iff c).2 ⟨hws c ?_, fun e => hlocat (e ▸ hc)⟩
        simp [hc]
      · exact fun c hc => hgood c (List.mem_of_mem_take hc)
      · exact fun c hc => hgood c (List.mem_of_mem_drop hc)
  refine ⟨hiff, fun h => trim_of_no_space email (hiff.1 h).1⟩

/-! ### The message store -/

/-- Looking a row up by its number after a row-wise change that keeps the numbers. -/
theorem find?_map_of_id {α : Type} (idf : α → Nat) (g : α → α) (hg : ∀ a, idf (g a) = idf a)
    (n : Nat) : ∀ l : List α,
    (l.map g).find? (fun a => idf a == n) = (l.find? (fun a => idf a == n)).map g
  | [] => rfl
  | a :: l => by
    simp only [List.map_cons, List.find?_cons, hg a]
    cases h : (idf a == n)
    · exact find?_map_of_id idf g hg n l
    · rfl

/-- The time stamp column keeps the other columns of the new row. -/
theorem touchUpdatedAt_fields (now : Nat) (old new : ContactMessage) :
    (touchUpdatedAt now old new).id = new.id ∧
    (touchUpdatedAt now old new).status = new.status ∧
    (touchUpdatedAt now old new).read_at = new.read_at ∧
    (touchUpdatedAt now old new).replied_at = new.replied_at := by
  unfold touchUpdatedAt
  by_cases h : new = old
  · rw [if_pos h, h]
    exact ⟨rfl, rfl, rfl, rfl⟩
  · rw [if_neg h]
    exact ⟨rfl, rfl, rfl, rfl⟩

/-- The row found after an `UPDATE ... WHERE id = ?` that keeps the row numbers. -/
theorem findMessage_update (now k : Nat) (set : ContactMessage → ContactMessage)
    (hset : ∀ r, (set r).id = r.id) (table : List ContactMessage) (n : Nat) :
    findMessage (updateMessagesWhereId now k set table) n =
      (findMessage table n).map
        (fun r => if r.id = k then touchUpdatedAt now r (set r) else r) := by
  unfold findMessage updateMessagesWhereId
  apply find?_map_of_id (fun r : ContactMessage => r.id)
  intro r
  by_cases h : r.id = k
  · rw [if_pos h, (touchUpdatedAt_fields now r (set r)).1, hset]
  · rw [if_neg h]

/-- The row that `findMessage` returns has the number asked for. -/
theorem findMessage_id (table : List ContactMessage) (n : Nat) (m : ContactMessage)
    (h : findMessage table n = some m) : m.id = n := by
  have := List.find?_some h
  simpa using this

/-- The table after a fetch by id. -/
theorem fetchMessage_table (now : Nat) (table : List ContactMessage) (n : Nat) :
    (fetchMessage now table (some n)).1 =
      if (findMessage table n).map (fun m => m.status) = some Status.unread then
        updateMessagesWhereId now n (markRead now) table
      else table := by
  unfold fetchMessage
  cases hf : findMessage table n with
  | none => simp [hf]
  | some m =>
    by_cases hun : m.status = Status.unread
    · simp [hf, hun]
    · simp [hf, hun]

/-- The table after an update: as it was, or with the assignments made on the rows of the
given id. -/
theorem updateMessage_table (key : Char → Char) (now : Nat) (table : List ContactMessage)
    (id : Option Nat) (status : Option String) (admin_notes : Option (Option String)) :
    (updateMessage key now table id status admin_notes).1 = table ∨
    ∃ n, (updateMessage key now table id status admin_notes).1 =
      updateMessagesWhereId now n (assignUpdates key now status admin_notes) table := by
  unfold updateMessage
  cases id with
  | none => left; rfl
  | some n =>
    cases hf : findMessage table n with
    | none => left; simp only [hf]
    | some m =>
      simp only [hf]
      split_ifs
      · left; rfl
      · left; rfl
      · right; exact ⟨n, rfl⟩

/-- C13: a fetch by id of a stored message with status unread leaves the stored status read
and `read_at` set to the time of the fetch; a second fetch changes nothing in the store, so
the status stays read and `read_at` stays as it is; and a fetch of a message whose status
is not unread changes nothing in the store. -/
theorem fetch_read_upgrade (now later : Nat) (table : List ContactMessage) (n : Nat)
    (m : ContactMessage) (hfind : findMessage table n = some m) :
    (m.status = Status.unread →
      (findMessage (fetchMessage now table (some n)).1 n).map (fun r => r.status) =
        some Status.read ∧
      (findMessage (fetchMessage now table (some n)).1 n).map (fun r => r.read_at) =
        some (some now) ∧
      (fetchMessage later (fetchMessage now table (some n)).1 (some n)).1 =
        (fetchMessage now table (some n)).1) ∧
    (m.status ≠ Status.unread → (fetchMessage now table (some n)).1 = table) := by
  have hid := findMessage_id table n m hfind
  constructor
  · intro hun
    have h1 : (fetchMessage now table (some n)).1 =
        updateMessagesWhereId now n (markRead now) table := by
      rw [fetchMessage_table, hfind]
      simp [hun]
    have h2 : findMessage (fetchMessage now table (some n)).1 n =
        some (touchUpdatedAt now m (markRead now m)) := by
      rw [h1, findMessage_update now n (markRead now) (fun _ => rfl), hfind]
      simp [hid]
    have hf := touchUpdatedAt_fields now m (markRead now m)
    have hst : (touchUpdatedAt now m (markRead now m)).status = Status.read := hf.2.1
    have hra : (touchUpdatedAt now m (markRead now m)).read_at = some now := hf.2.2.1
    refine ⟨by rw [h2]; simp [hst], by rw [h2]; simp [hra], ?_⟩
    rw [fetchMessage_table later, h2]
    simp [hst]
  · intro hne
    rw [fetchMessage_table, hfind]
    simp [hne]

/-- C13 on the first message of the sample table, unread when fetched at time 500. -/
theorem fetch_read_upgrade_witness :
    findMessage sampleTable 1 =
      some (sampleRow 1 "bob" "bob@example.org" "hello" Status.unread 100) ∧
    (findMessage (fetchMessage 500 sampleTable (some 1)).1 1).map (fun r => r.read_at) =
      some (some 500) ∧
    (fetchMessage 900 (fetchMessage 500 sampleTable (some 1)).1 (some 1)).1 =
      (fetchMessage 500 sampleTable (some 1)).1 :=
  ⟨by decide,
    ((fetch_read_upgrade 500 900 sampleTable 1
      (sampleRow 1 "bob" "bob@example.org" "hello" Status.unread 100) (by decide)).1
      (by decide)).2.1,
    ((fetch_read_upgrade 500 900 sampleTable 1
      (sampleRow 1 "bob" "bob@example.org" "hello" Status.unread 100) (by decide)).1
      (by decide)).2.2⟩

/-- C14, as stated, fails: an update that takes the unread first message of the sample
table to the status replied leaves its `read_at` unset. -/
theorem update_leaves_read_at_unset :
    (findMessage sampleTable 1).map (fun r => (r.status, r.read_at)) =
      some (Status.unread, none) ∧
    (findMessage
      (applyMessageOp asciiLower Char.toLower 500 sampleTable
        (MessageOp.update (some 1) (some "replied") none)) 1).map
      (fun r => (r.status, r.read_at)) = some (Status.replied, none) := by
  decide

/-- C14, amended: `read_at` is written by the fetch by id alone, which stamps it with the
current time on the rows it upgrades (the rows with the fetched id, when the fetched message
has status unread); an update never changes `read_at`, whatever it does to the status, a
fetch of a message whose status is not unread changes nothing, and a created message starts
with status unread and `read_at` unset. -/
theorem read_at_written_by_fetch_only (toLowerCase : String → String) (key : Char → Char)
    (now : Nat) (table : List ContactMessage) :
    (∀ id status admin_notes,
      (applyMessageOp toLowerCase key now table
        (MessageOp.update id status admin_notes)).map (fun r => r.read_at) =
        table.map (fun r => r.read_at)) ∧
    (∀ n,
      (applyMessageOp toLowerCase key now table (MessageOp.fetch (some n))).map
          (fun r => r.read_at) =
        table.map (fun r =>
          if r.id = n ∧ (findMessage table n).map (fun m => m.status) = some Status.unread
          then some now else r.read_at)) ∧
    (∀ n, (findMessage table n).map (fun m => m.status) ≠ some Status.unread →
      applyMessageOp toLowerCase key now table (MessageOp.fetch (some n)) = table) ∧
    applyMessageOp toLowerCase key now table (MessageOp.fetch none) = table ∧
    (∀ body ip userAgent insertId,
      applyMessageOp toLowerCase key now table (MessageOp.create body ip userAgent insertId) =
          table ∨
      ∃ row : ContactMessage,
        applyMessageOp toLowerCase key now table (MessageOp.create body ip userAgent insertId) =
          table ++ [row] ∧ row.read_at = none ∧ row.status = Status.unread) := by
  refine ⟨?_, ?_, ?_, rfl, ?_⟩
  · intro id status admin_notes
    show (updateMessage key now table id status admin_notes).1.map _ = _
    rcases updateMessage_table key now table id status admin_notes with h | ⟨n, h⟩
    · rw [h]
    · rw [h]
      simp only [updateMessagesWhereId, List.map_map]
      apply List.map_congr_left
      intro r _
      simp only [Function.comp]
      split_ifs
      · rw [(touchUpdatedAt_fields now r _).2.2.1]
        rfl
      · rfl
  · intro n
    show (fetchMessage now table (some n)).1.map _ = _
    rw [fetchMessage_table]
    by_cases hun : (findMessage table n).map (fun m => m.status) = some Status.unread
    · rw [if_pos hun]
      simp only [updateMessagesWhereId, List.map_map]
      apply List.map_congr_left
      intro r _
      simp only [Function.comp]
      by_cases hr : r.id = n
      · rw [if_pos hr, (touchUpdatedAt_fields now r _).2.2.1, if_pos ⟨hr, hun⟩]
        rfl
      · rw [if_neg hr, if_neg (fun h => hr h.1)]
    · rw [if_neg hun]
      apply List.map_congr_left
      intro r _
      rw [if_neg (fun h => hun h.2)]
  · intro n hne
    show (fetchMessage now table (some n)).1 = _
    rw [fetchMessage_table, if_neg hne]
  · intro body ip userAgent insertId
    simp only [applyMessageOp, createContact]
    split_ifs
    all_goals first
      | (left; rfl)
      | (right; exact ⟨_, rfl, rfl, rfl⟩)

/-- C15 fails on the code: a second update with status replied, at time 900, overwrites the
`replied_at` that the first one, at time 500, had set. -/
theorem replied_twice_restamps :
    (findMessage (updateMessage Char.toLower 500 sampleTable (some 1) (some "replied") none).1
      1).map (fun r => r.replied_at) = some (some 500) ∧
    (findMessage
      (updateMessage Char.toLower 900
        (updateMessage Char.toLower 500 sampleTable (some 1) (some "replied") none).1
        (some 1) (some "replied") none).1 1).map (fun r => r.replied_at) = some (some 900) := by
  decide

/-! ### The project store -/

/-- The row found after an `UPDATE projects ... WHERE id = ?` that keeps the row numbers. -/
theorem findProject_update (k : Nat) (set : Project → Project) (hset : ∀ p, (set p).id = p.id)
    (store : List Project) (n : Nat) :
    findProject (updateProjectsWhereId k set store) n =
      (findProject store n).map (fun p => if p.id = k then set p else p) := by
  unfold findProject updateProjectsWhereId
  apply find?_map_of_id (fun p : Project => p.id)
  intro p
  by_cases h : p.id = k
  · rw [if_pos h, hset]
  · rw [if_neg h]

/-- The row that `findProject` returns has the number asked for. -/
theorem findProject_id (store : List Project) (n : Nat) (p : Project)
    (h : findProject store n = some p) : p.id = n := by
  have := List.find?_some h
  simpa using this

/-- C16: `PUT /api/projects/:id` replaces every body column of an existing project: title,
description and technologies by the trimmed body value, or the empty string when omitted;
the four optional columns by the body value, or null when omitted or empty; `featured` by
the body value, or false when omitted.  The id, the views and `created_at` stay as they
were and no other project changes; a body with the title `X` alone leaves the title `X`,
empty description and technologies, null optional columns and `featured` false. -/
theorem put_replaces_every_field (now : Nat) (store : List Project) (n : Nat) (p : Project)
    (body : ProjectBody) (hfind : findProject store n = some p) :
    findProject (updateProject now store (some n) body).1 n =
      some { id := p.id,
             title := trimOrEmpty body.title,
             description := trimOrEmpty body.description,
             technologies := trimOrEmpty body.technologies,
             image_url := orNull body.image_url,
             project_url := orNull body.project_url,
             github_url := orNull body.github_url,
             category := orNull body.category,
             featured := body.featured.getD false,
             views := p.views,
             created_at := p.created_at,
             updated_at := now } ∧
    (updateProject now store (some n) body).2.status = 200 ∧
    (updateProject now store (some n) body).2.project =
      findProject (updateProject now store (some n) body).1 n ∧
    (∀ k, k ≠ n →
      findProject (updateProject now store (some n) body).1 k = findProject store k) ∧
    (trimOrEmpty none = "" ∧ ∀ s, trimOrEmpty (some s) = trim s) ∧
    (orNull none = none ∧ orNull (some "") = none ∧ ∀ s, s ≠ "" → orNull (some s) = some s) ∧
    findProject (updateProject now store (some n) (projectBody (some "X") none none)).1 n =
      some { id := p.id, title := "X", description := "", technologies := "",
             image_url := none, project_url := none, github_url := none, category := none,
             featured := false, views := p.views, created_at := p.created_at,
             updated_at := now } := by
  have hid := findProject_id store n p hfind
  have hstore : ∀ b, (updateProject now store (some n) b).1 =
      updateProjectsWhereId n (replaceFields now b) store := by
    intro b
    simp only [updateProject, hfind]
  have hrow : ∀ b, findProject (updateProject now store (some n) b).1 n =
      some (replaceFields now b p) := by
    intro b
    rw [hstore, findProject_update n (replaceFields now b) (fun _ => rfl), hfind]
    simp [hid]
  refine ⟨hrow body, ?_, ?_, ?_, ⟨rfl, fun _ => rfl⟩, ⟨rfl, rfl, ?_⟩, ?_⟩
  · simp only [updateProject, hfind]
  · simp only [updateProject, hfind]
  · intro k hk
    rw [hstore, findProject_update n (replaceFields now body) (fun _ => rfl)]
    cases hf : findProject store k with
    | none => rfl
    | some q =>
      have hq := findProject_id store k q hf
      have : ¬ q.id = n := by rw [hq]; exact hk
      simp [this]
  · intro s hs
    simp [orNull, truthy, hs]
  · rw [hrow]
    rfl

/-- C16 on the first project of the sample store, updated with the title `X` alone. -/
theorem put_replaces_every_field_witness :
    findProject sampleStore 1 = some (sampleProject 1 "one") ∧
    findProject (updateProject 99 sampleStore (some 1) (projectBody (some "X") none none)).1 1 =
      some { id := 1, title := "X", description := "", technologies := "",
             image_url := none, project_url := none, github_url := none, category := none,
             featured := false, views := 3, created_at := 10, updated_at := 99 } :=
  ⟨by decide,
    (put_replaces_every_field 99 sampleStore 1 (sampleProject 1 "one")
      (projectBody (some "X") none none) (by decide)).2.2.2.2.2.2⟩

/-- C17, as stated, fails at a title of three blanks: the title is empty after trimming, and
the handler answers 201 and inserts a project with the empty title. -/
theorem blank_title_is_inserted :
    trim "   " = "" ∧
    (createProject 99 3 sampleStore (projectBody (some "   ") (some "d") (some "t"))).2.status
      = 201 ∧
    (createProject 99 3 sampleStore (projectBody (some "   ") (some "d") (some "t"))).1.length
      = sampleStore.length + 1 ∧
    (findProject
      (createProject 99 3 sampleStore (projectBody (some "   ") (some "d") (some "t"))).1
      3).map (fun p => p.title) = some "" := by
  decide

/-- C17, amended: `POST /api/projects` requires title, description and technologies to be
present and non-empty as sent: when one of the three is missing or the empty string the
handler answers 400 and inserts nothing; otherwise it answers 201 and inserts one project
with the three values trimmed, which leaves a value of white space alone empty. -/
theorem create_project_requires_presence (now insertId : Nat) (store : List Project)
    (body : ProjectBody) :
    ((createProject now insertId store body).2.status = 400 ↔
      (truthy body.title = false ∨ truthy body.description = false ∨
        truthy body.technologies = false)) ∧
    ((truthy body.title = false ∨ truthy body.description = false ∨
        truthy body.technologies = false) →
      (createProject now insertId store body).1 = store) ∧
    (¬ (truthy body.title = false ∨ truthy body.description = false ∨
        truthy body.technologies = false) →
      (createProject now insertId store body).2.status = 201 ∧
      ∃ row : Project,
        (createProject now insertId store body).1 = store ++ [row] ∧
        row.title = trim (body.title.getD "") ∧
        row.description = trim (body.description.getD "") ∧
        row.technologies = trim (body.technologies.getD "") ∧
        row.views = 0) ∧
    (truthy none = false ∧ truthy (some "") = false ∧ ∀ s, s ≠ "" → truthy (some s) = true) := by
  refine ⟨?_, ?_, ?_, rfl, rfl, fun s hs => truthy_some s hs⟩
  all_goals
    unfold createProject
    cases ht : truthy body.title <;> cases hd : truthy body.description <;>
      cases hk : truthy body.technologies <;> simp

/-- The amended C17 on a complete body and on a body without a title. -/
theorem create_project_requires_presence_witness :
    (createProject 99 3 sampleStore (projectBody (some " T ") (some "d") (some "t"))).2.status
      = 201 ∧
    (createProject 99 3 sampleStore (projectBody none (some "d") (some "t"))).1 = sampleStore :=
  ⟨((create_project_requires_presence 99 3 sampleStore
      (projectBody (some " T ") (some "d") (some "t"))).2.2.1 (by decide)).1,
    (create_project_requires_presence 99 3 sampleStore
      (projectBody none (some "d") (some "t"))).2.1 (by decide)⟩

/-- C18 fails on the code: with the image file present and `unlinkSync` throwing, the delete
handler has removed the row of the project and answers 500, not the success response. -/
theorem delete_answers_500_when_unlink_throws :
    (findProject sampleStore 1).map (fun p => p.image_url) = some (some "/uploads/1_pic.png") ∧
    findProject
      (deleteProject { existsSync := fun _ => true, unlinkSync := fun _ => false }
        (fun f => "/srv/app" ++ f) sampleStore (some 1)).1 1 = none ∧
    (deleteProject { existsSync := fun _ => true, unlinkSync := fun _ => false }
        (fun f => "/srv/app" ++ f) sampleStore (some 1)).2 =
      { status := 500, text := "Failed to delete project", project := none, views := none } ∧
    (deleteProject { existsSync := fun _ => true, unlinkSync := fun _ => true }
        (fun f => "/srv/app" ++ f) sampleStore (some 1)).2.status = 200 := by
  decide

/-- One operation on the store: the project `n` is still there, and its views have grown by
one when the operation is a detail view or a view ping of `n`, and not at all otherwise. -/
theorem applyProjectOp_views (now : Nat) (store : List Project) (op : ProjectOp) (n : Nat)
    (p : Project) (hfind : findProject store n = some p) :
    ∃ p', findProject (applyProjectOp now store op) n = some p' ∧
      p'.views = p.views + (if countsView n op then 1 else 0) := by
  have hid := findProject_id store n p hfind
  have hincr : ∀ k, ∃ p', findProject (updateProjectsWhereId k incrementViews store) n =
      some p' ∧ p'.views = p.views + (if (k == n) = true then 1 else 0) := by
    intro k
    rw [findProject_update k incrementViews (fun _ => rfl), hfind]
    by_cases hk : k = n
    · subst hk
      exact ⟨incrementViews p, by simp [hid], by simp [incrementViews]⟩
    · have hk' : ¬ p.id = k := by rw [hid]; exact fun e => hk e.symm
      exact ⟨p, by simp [hk'], by simp [hk]⟩
  cases op with
  | create body insertId =>
    have hstore : (createProject now insertId store body).1 = store ∨
        ∃ row, (createProject now insertId store body).1 = store ++ [row] := by
      unfold createProject
      split_ifs
      · left; rfl
      · right; exact ⟨_, rfl⟩
    refine ⟨p, ?_, by simp [countsView]⟩
    show findProject (createProject now insertId store body).1 n = some p
    rcases hstore with h | ⟨row, h⟩
    · rw [h]; exact hfind
    · rw [h]
      unfold findProject at hfind ⊢
      rw [List.find?_append, hfind]
      rfl
  | update id body =>
    cases id with
    | none => exact ⟨p, hfind, by simp [countsView]⟩
    | some k =>
      simp only [applyProjectOp, updateProject, countsView]
      cases hf : findProject store k with
      | none => exact ⟨p, by simp only [hfind], by simp⟩
      | some q =>
        simp only []
        rw [findProject_update k (replaceFields now body) (fun _ => rfl), hfind]
        by_cases hk : p.id = k
        · exact ⟨replaceFields now body p, by simp [hk], by simp [replaceFields]⟩
        · exact ⟨p, by simp [hk], by simp⟩
  | fetch id =>
    cases id with
    | none => exact ⟨p, hfind, by simp [countsView]⟩
    | some k =>
      simp only [applyProjectOp, fetchProject, countsView]
      cases hf : findProject store k with
      | none =>
        have hk : ¬ k = n := by
          intro e
          rw [e, hfind] at hf
          cases hf
        exact ⟨p, by simp only [hfind], by simp [hk]⟩
      | some q => exact hincr k
  | view k =>
    simp only [applyProjectOp, viewProject, countsView]
    obtain ⟨p', h1, h2⟩ := hincr k
    refine ⟨p', ?_, h2⟩
    split <;> exact h1

/-- C19: each detail view and each view ping of an existing project raises its views by
exactly one and changes no other column and no other project; no create, update, detail
view or view ping lowers the views of a project; and after any sequence of these operations
the views of a project are its initial views plus the number of detail views and view pings
of it in the sequence. -/
theorem views_count_calls (ops : List (Nat × ProjectOp)) (store : List Project) (n : Nat)
    (p : Project) (hfind : findProject store n = some p) :
    (fetchProject store (some n)).1 =
      store.map (fun q => if q.id = n then { q with views := q.views + 1 } else q) ∧
    (viewProject store n).1 =
      store.map (fun q => if q.id = n then { q with views := q.views + 1 } else q) ∧
    (∀ now op, ∃ p', findProject (applyProjectOp now store op) n = some p' ∧
      p.views ≤ p'.views) ∧
    (findProject (runProjectOps ops store) n).map (fun q => q.views) =
      some (p.views + (ops.filter (fun o => countsView n o.2)).length) := by
  refine ⟨?_, ?_, ?_, ?_⟩
  · simp only [fetchProject, hfind]
    rfl
  · simp only [viewProject]
    split <;> rfl
  · intro now op
    obtain ⟨p', h1, h2⟩ := applyProjectOp_views now store op n p hfind
    exact ⟨p', h1, by omega⟩
  · induction ops generalizing store p with
    | nil => simp [runProjectOps, hfind]
    | cons o ops ih =>
      obtain ⟨now, op⟩ := o
      obtain ⟨p', h1, h2⟩ := applyProjectOp_views now store op n p hfind
      simp only [runProjectOps]
      rw [ih _ p' h1, h2, List.filter_cons]
      by_cases hc : countsView n op = true
      · simp [hc]; omega
      · simp [hc]

/-- C19 on the second project of the sample store: a detail view, an update and a view ping
take its views from 3 to 5. -/
theorem views_count_calls_witness :
    findProject sampleStore 2 = some (sampleProject 2 "two") ∧
    (findProject
      (runProjectOps
        [(1, ProjectOp.fetch (some 2)), (2, ProjectOp.update (some 2) (projectBody none none none)),
         (3, ProjectOp.view 2), (4, ProjectOp.view 1)] sampleStore) 2).map (fun q => q.views) =
      some (3 + 2) :=
  ⟨by decide,
    (views_count_calls
      [(1, ProjectOp.fetch (some 2)), (2, ProjectOp.update (some 2) (projectBody none none none)),
       (3, ProjectOp.view 2), (4, ProjectOp.view 1)] sampleStore 2 (sampleProject 2 "two")
      (by decide)).2.2.2⟩

/-! ### The record in the response of a fetch -/

/-- The response of a fetch by id of a stored message: status 200 with the row as selected
before the update. -/
theorem fetchMessage_response (now : Nat) (table : List ContactMessage) (n : Nat)
    (m : ContactMessage) (hfind : findMessage table n = some m) :
    (fetchMessage now table (some n)).2 = { status := 200, text := "", record := some m } := by
  simp only [fetchMessage, hfind]

/-- C21: the record in the response of `GET /api/messages/:id` is the row as selected before
the read upgrade.  For a stored message with status unread the response carries status unread
and the `read_at` the row had, while the table afterwards holds status read and `read_at` set
to the time of the fetch; for a message whose status is not unread the response is the row
that the table holds afterwards. -/
theorem fetch_responds_with_prior_row (now : Nat) (table : List ContactMessage) (n : Nat)
    (m : ContactMessage) (hfind : findMessage table n = some m) :
    (fetchMessage now table (some n)).2.status = 200 ∧
    (fetchMessage now table (some n)).2.record = some m ∧
    (m.status = Status.unread →
      (fetchMessage now table (some n)).2.record.map (fun r => r.status) =
        some Status.unread ∧
      (fetchMessage now table (some n)).2.record.map (fun r => r.read_at) = some m.read_at ∧
      (findMessage (fetchMessage now table (some n)).1 n).map (fun r => r.status) =
        some Status.read ∧
      (findMessage (fetchMessage now table (some n)).1 n).map (fun r => r.read_at) =
        some (some now) ∧
      (fetchMessage now table (some n)).2.record ≠
        findMessage (fetchMessage now table (some n)).1 n) ∧
    (m.status ≠ Status.unread →
      (fetchMessage now table (some n)).2.record =
        findMessage (fetchMessage now table (some n)).1 n) := by
  have hid := findMessage_id table n m hfind
  have hresp := fetchMessage_response now table n m hfind
  refine ⟨by rw [hresp], by rw [hresp], ?_, ?_⟩
  · intro hun
    have hstored : findMessage (fetchMessage now table (some n)).1 n =
        some (touchUpdatedAt now m (markRead now m)) := by
      rw [fetchMessage_table, hfind]
      simp only [Option.map_some', hun, if_true]
      rw [findMessage_update now n (markRead now) (fun _ => rfl), hfind]
      simp [hid]
    have hf := touchUpdatedAt_fields now m (markRead now m)
    have hst : (touchUpdatedAt now m (markRead now m)).status = Status.read := hf.2.1
    have hra : (touchUpdatedAt now m (markRead now m)).read_at = some now := hf.2.2.1
    refine ⟨by rw [hresp]; simp [hun], by rw [hresp]; rfl, by rw [hstored]; simp [hst],
      by rw [hstored]; simp [hra], ?_⟩
    rw [hresp, hstored]
    intro h
    have hs : m.status = (touchUpdatedAt now m (markRead now m)).status :=
      congrArg ContactMessage.status (Option.some.inj h)
    rw [hst, hun] at hs
    exact absurd hs (by decide)
  · intro hne
    rw [hresp, fetchMessage_table, hfind]
    simp only [Option.map_some', Option.some.injEq, hne, if_false]
    exact hfind.symm

/-- C21 on the sample table: the first message, unread, is answered as unread while the
table then holds it as read; the second message, read, is answered as the table holds it. -/
theorem fetch_responds_with_prior_row_witness :
    findMessage sampleTable 1 =
      some (sampleRow 1 "bob" "bob@example.org" "hello" Status.unread 100) ∧
    (fetchMessage 500 sampleTable (some 1)).2.record.map (fun r => r.status) =
      some Status.unread ∧
    (findMessage (fetchMessage 500 sampleTable (some 1)).1 1).map (fun r => r.status) =
      some Status.read ∧
    (fetchMessage 500 sampleTable (some 2)).2.record =
      findMessage (fetchMessage 500 sampleTable (some 2)).1 2 :=
  ⟨by decide,
    ((fetch_responds_with_prior_row 500 sampleTable 1
      (sampleRow 1 "bob" "bob@example.org" "hello" Status.unread 100) (by decide)).2.2.1
      (by decide)).1,
    ((fetch_responds_with_prior_row 500 sampleTable 1
      (sampleRow 1 "bob" "bob@example.org" "hello" Status.unread 100) (by decide)).2.2.1
      (by decide)).2.2.1,
    (fetch_responds_with_prior_row 500 sampleTable 2
      (sampleRow 2 "Alice" "alice@example.org" "Bob says hi" Status.read 200) (by decide)).2.2.2
      (by decide)⟩

end PortoServer
